import Mathlib

/-!
# CWPack (MessagePack codec) — verification of spec claims

Shallow embedding of `src/src/cwpack.c`.  The pack context is modelled as the
list of bytes written so far (`out`, standing for the window `start..current`)
plus the buffer capacity (`end - start`); the unpack context carries the whole
buffer and a cursor.  Machine integers are `Nat`/`Int` with explicit two's
complement conversions (`toBits`/`ofBits`).  Contexts are modelled without
overflow/underflow handlers (handler-free operation is what the claims are
about); exhaustion is then fatal, exactly as in the C code when the handler
pointer is NULL.
-/

set_option maxRecDepth 4000

/-- Modelled from the spec: return codes are a closed enumeration (cwpack.h is
not part of src/); only `ok` is zero, all others are distinct non-OK codes. -/
inductive RC where
  | ok
  | endOfInput
  | bufferUnderflow
  | bufferOverflow
  | malformedInput
  | wrongByteOrder
  | stopped
  deriving DecidableEq, Repr

/-- Two's complement bit pattern (width `w`) of a signed value, as in a C cast
to an unsigned integer of width `w`. -/
def toBits (w : Nat) (i : Int) : Nat := (i % (2 ^ w : Int)).toNat

/-- Signed reading of a `w`-bit pattern (C cast to a signed integer type). -/
def ofBits (w : Nat) (b : Nat) : Int :=
  if b < 2 ^ (w - 1) then (b : Int) else (b : Int) - 2 ^ w

/-- `(uint8_t)` cast of an `int8_t` value: the low byte of the pattern. -/
def byteOfInt (t : Int) : Nat := toBits 8 t

/-- Byte `k` (from the least significant end) of a value, `(uint8_t)(v >> 8k)`. -/
def byteAt (v : Nat) (k : Nat) : Nat := (v >>> (8 * k)) % 256

/-- `cw_store16` (portable path): big-endian bytes, per-byte shifts. -/
def cw_store16 (d : Nat) : List Nat := [byteAt d 1, byteAt d 0]

/-- `cw_store32` (portable path). -/
def cw_store32 (d : Nat) : List Nat := [byteAt d 3, byteAt d 2, byteAt d 1, byteAt d 0]

/-- `cw_store64` (portable path). -/
def cw_store64 (z : Nat) : List Nat :=
  [byteAt z 7, byteAt z 6, byteAt z 5, byteAt z 4, byteAt z 3, byteAt z 2, byteAt z 1, byteAt z 0]

/-!  ## Pack context and packing routines  -/

/-- `cw_pack_context` without the handler: `out` is the byte window
`start..current` (so `current = start + out.length`), `cap` is `end - start`. -/
structure cw_pack_context where
  out : List Nat
  cap : Nat
  return_code : RC
  deriving DecidableEq, Repr

/-- Record a fatal code in the context and return it (`return_code = rc; return rc`). -/
def packFail (ctx : cw_pack_context) (rc : RC) : cw_pack_context × RC :=
  ({ ctx with return_code := rc }, rc)

/-- `cw_pack_reserve_space(more)` failure test for a handler-free context:
`more > end - current`. -/
def packNeeds (ctx : cw_pack_context) (more : Nat) : Prop :=
  ctx.cap - ctx.out.length < more

instance (ctx : cw_pack_context) (more : Nat) : Decidable (packNeeds ctx more) :=
  inferInstanceAs (Decidable (_ < _))

/-- `tryMove0(t)`: reserve 1, write one tag byte. -/
def tryMove0 (ctx : cw_pack_context) (t : Nat) : cw_pack_context × RC :=
  if packNeeds ctx 1 then packFail ctx .bufferOverflow
  else ({ ctx with out := ctx.out ++ [t % 256] }, .ok)

/-- `tryMove1(t,d)`: reserve 2, write tag byte and one data byte. -/
def tryMove1 (ctx : cw_pack_context) (t d : Nat) : cw_pack_context × RC :=
  if packNeeds ctx 2 then packFail ctx .bufferOverflow
  else ({ ctx with out := ctx.out ++ [t % 256, d % 256] }, .ok)

/-- `tryMove2(t,d)`: reserve 3, write tag byte and `cw_store16(d)`. -/
def tryMove2 (ctx : cw_pack_context) (t d : Nat) : cw_pack_context × RC :=
  if packNeeds ctx 3 then packFail ctx .bufferOverflow
  else ({ ctx with out := ctx.out ++ t % 256 :: cw_store16 d }, .ok)

/-- `tryMove4(t,d)`: reserve 5, write tag byte and `cw_store32(d)`. -/
def tryMove4 (ctx : cw_pack_context) (t d : Nat) : cw_pack_context × RC :=
  if packNeeds ctx 5 then packFail ctx .bufferOverflow
  else ({ ctx with out := ctx.out ++ t % 256 :: cw_store32 d }, .ok)

/-- `tryMove8(t,d)`: reserve 9, write tag byte and `cw_store64(d)`. -/
def tryMove8 (ctx : cw_pack_context) (t d : Nat) : cw_pack_context × RC :=
  if packNeeds ctx 9 then packFail ctx .bufferOverflow
  else ({ ctx with out := ctx.out ++ t % 256 :: cw_store64 d }, .ok)

/-- `cw_pack_unsigned` (`i` is the `uint64_t` argument, `i < 2^64`). -/
def cw_pack_unsigned (ctx : cw_pack_context) (i : Nat) : cw_pack_context × RC :=
  if ctx.return_code ≠ .ok then (ctx, .stopped)
  else if i < 128 then tryMove0 ctx i
  else if i < 256 then tryMove1 ctx 0xcc i
  else if i < 0x10000 then tryMove2 ctx 0xcd i
  else if i < 0x100000000 then tryMove4 ctx 0xce i
  else tryMove8 ctx 0xcf i

/-- `cw_pack_signed` (`i` is the `int64_t` argument). -/
def cw_pack_signed (ctx : cw_pack_context) (i : Int) : cw_pack_context × RC :=
  if ctx.return_code ≠ .ok then (ctx, .stopped)
  else if 0 ≤ i then cw_pack_unsigned ctx i.toNat
  else if -32 ≤ i then tryMove0 ctx (toBits 8 i)
  else if -128 ≤ i then tryMove1 ctx 0xd0 (toBits 8 i)
  else if -32768 ≤ i then tryMove2 ctx 0xd1 (toBits 16 i)
  else if -(2 ^ 31) ≤ i then tryMove4 ctx 0xd2 (toBits 32 i)
  else tryMove8 ctx 0xd3 (toBits 64 i)

/-- `cw_pack_float`: `f` is the 32-bit IEEE-754 pattern of the argument
(the C code reinterprets the float's bits as `uint32_t`). -/
def cw_pack_float (ctx : cw_pack_context) (f : Nat) : cw_pack_context × RC :=
  if ctx.return_code ≠ .ok then (ctx, .stopped)
  else tryMove4 ctx 0xca f

/-- `cw_pack_double`: `d` is the 64-bit IEEE-754 pattern of the argument. -/
def cw_pack_double (ctx : cw_pack_context) (d : Nat) : cw_pack_context × RC :=
  if ctx.return_code ≠ .ok then (ctx, .stopped)
  else tryMove8 ctx 0xcb d

/-- `cw_pack_nil`. -/
def cw_pack_nil (ctx : cw_pack_context) : cw_pack_context × RC :=
  if ctx.return_code ≠ .ok then (ctx, .stopped)
  else tryMove0 ctx 0xc0

/-- `cw_pack_boolean`. -/
def cw_pack_boolean (ctx : cw_pack_context) (b : Bool) : cw_pack_context × RC :=
  if ctx.return_code ≠ .ok then (ctx, .stopped)
  else tryMove0 ctx (if b then 0xc3 else 0xc2)

/-- `cw_pack_array_size` (`n < 2^32`). -/
def cw_pack_array_size (ctx : cw_pack_context) (n : Nat) : cw_pack_context × RC :=
  if ctx.return_code ≠ .ok then (ctx, .stopped)
  else if n < 16 then tryMove0 ctx (0x90 ||| n)
  else if n < 65536 then tryMove2 ctx 0xdc n
  else tryMove4 ctx 0xdd n

/-- `cw_pack_map_size` (`n < 2^32`). -/
def cw_pack_map_size (ctx : cw_pack_context) (n : Nat) : cw_pack_context × RC :=
  if ctx.return_code ≠ .ok then (ctx, .stopped)
  else if n < 16 then tryMove0 ctx (0x80 ||| n)
  else if n < 65536 then tryMove2 ctx 0xde n
  else tryMove4 ctx 0xdf n

/-- `cw_pack_str`: `v` is the pointed-to bytes, `l` the length argument
(`memcpy` copies exactly `l` bytes from `v`). -/
def cw_pack_str (ctx : cw_pack_context) (v : List Nat) (l : Nat) : cw_pack_context × RC :=
  if ctx.return_code ≠ .ok then (ctx, .stopped)
  else if l < 32 then
    if packNeeds ctx (l + 1) then packFail ctx .bufferOverflow
    else
      let ctx1 : cw_pack_context := { ctx with out := ctx.out ++ [(0xa0 + l) % 256] }
      if l = 0 then (ctx1, .ok)
      else ({ ctx1 with out := ctx1.out ++ v.take l }, .ok)
  else if l < 256 then
    if packNeeds ctx (l + 2) then packFail ctx .bufferOverflow
    else ({ ctx with out := ctx.out ++ 0xd9 :: l % 256 :: v.take l }, .ok)
  else if l < 65536 then
    if packNeeds ctx (l + 3) then packFail ctx .bufferOverflow
    else ({ ctx with out := ctx.out ++ 0xda :: (cw_store16 l ++ v.take l) }, .ok)
  else
    if packNeeds ctx (l + 5) then packFail ctx .bufferOverflow
    else ({ ctx with out := ctx.out ++ 0xdb :: (cw_store32 l ++ v.take l) }, .ok)

/-- `cw_pack_bin`. -/
def cw_pack_bin (ctx : cw_pack_context) (v : List Nat) (l : Nat) : cw_pack_context × RC :=
  if ctx.return_code ≠ .ok then (ctx, .stopped)
  else if l < 256 then
    if packNeeds ctx (l + 2) then packFail ctx .bufferOverflow
    else ({ ctx with out := ctx.out ++ 0xc4 :: l % 256 :: v.take l }, .ok)
  else if l < 65536 then
    if packNeeds ctx (l + 3) then packFail ctx .bufferOverflow
    else ({ ctx with out := ctx.out ++ 0xc5 :: (cw_store16 l ++ v.take l) }, .ok)
  else
    if packNeeds ctx (l + 5) then packFail ctx .bufferOverflow
    else ({ ctx with out := ctx.out ++ 0xc6 :: (cw_store32 l ++ v.take l) }, .ok)

/-- `cw_pack_ext` (`t` is the `int8_t` user type, `l` the length). -/
def cw_pack_ext (ctx : cw_pack_context) (t : Int) (v : List Nat) (l : Nat) :
    cw_pack_context × RC :=
  if ctx.return_code ≠ .ok then (ctx, .stopped)
  else if l = 1 then
    if packNeeds ctx 3 then packFail ctx .bufferOverflow
    else ({ ctx with out := ctx.out ++ 0xd4 :: byteOfInt t :: v.take 1 }, .ok)
  else if l = 2 then
    if packNeeds ctx 4 then packFail ctx .bufferOverflow
    else ({ ctx with out := ctx.out ++ 0xd5 :: byteOfInt t :: v.take 2 }, .ok)
  else if l = 4 then
    if packNeeds ctx 6 then packFail ctx .bufferOverflow
    else ({ ctx with out := ctx.out ++ 0xd6 :: byteOfInt t :: v.take 4 }, .ok)
  else if l = 8 then
    if packNeeds ctx 10 then packFail ctx .bufferOverflow
    else ({ ctx with out := ctx.out ++ 0xd7 :: byteOfInt t :: v.take 8 }, .ok)
  else if l = 16 then
    if packNeeds ctx 18 then packFail ctx .bufferOverflow
    else ({ ctx with out := ctx.out ++ 0xd8 :: byteOfInt t :: v.take 16 }, .ok)
  else if l < 256 then
    if packNeeds ctx (l + 3) then packFail ctx .bufferOverflow
    else ({ ctx with out := ctx.out ++ 0xc7 :: l % 256 :: byteOfInt t :: v.take l }, .ok)
  else if l < 65536 then
    if packNeeds ctx (l + 4) then packFail ctx .bufferOverflow
    else ({ ctx with out := ctx.out ++ 0xc8 :: (cw_store16 l ++ byteOfInt t :: v.take l) }, .ok)
  else
    if packNeeds ctx (l + 6) then packFail ctx .bufferOverflow
    else ({ ctx with out := ctx.out ++ 0xc9 :: (cw_store32 l ++ byteOfInt t :: v.take l) }, .ok)

/-- A fresh pack context over an empty buffer of capacity `cap`
(`cw_pack_context_init` with a buffer of length `cap`, no handler). -/
def initPack (cap : Nat) : cw_pack_context := ⟨[], cap, .ok⟩

/-!  ## Unpack context, item record, and `cw_unpack_next`  -/

/-- The `type` field of `cwpack_item`.  The extension variant carries the
signed 8-bit user type code directly (as the C code stores the `int8_t` byte
in the integer `type` field); `extHeader` is the transient `CWP_ITEM_EXT`
value set by `getDDItem{1,2,4}` before the user type byte has been read. -/
inductive cwItemType where
  | nil
  | boolean
  | posInt
  | negInt
  | float
  | double
  | str
  | bin
  | array
  | map
  | extHeader
  | ext (t : Int)
  deriving DecidableEq, Repr

/-- The `item` record.  `cell` is the 64-bit numeric slot of the union, holding
the raw bit pattern that the C code views as `u64` or `i64`; `real32` is the
float slot's 32-bit pattern; `size` models `array.size`/`map.size`;
`blobStart`/`blobLen` model the `str`/`bin`/`ext` blob descriptor, with
`blobStart` an offset into the buffer (zero-copy aliasing). -/
structure cwItem where
  type : cwItemType
  cell : Nat
  boolean : Bool
  real32 : Nat
  size : Nat
  blobStart : Nat
  blobLen : Nat
  deriving DecidableEq, Repr

/-- The `u64` view of the numeric union slot. -/
def cwItem.u64 (it : cwItem) : Nat := it.cell

/-- The `i64` view of the numeric union slot (two's complement). -/
def cwItem.i64 (it : cwItem) : Int := ofBits 64 it.cell

/-- `cw_unpack_context` without the handler: `data` is the buffer `start..end`,
`current` the cursor offset (so `end - current = data.length - current`). -/
structure cw_unpack_context where
  data : List Nat
  current : Nat
  return_code : RC
  item : cwItem
  deriving DecidableEq, Repr

/-- Record a fatal code in the context and return it. -/
def unpackFail (ctx : cw_unpack_context) (rc : RC) : cw_unpack_context × RC :=
  ({ ctx with return_code := rc }, rc)

/-- `cw_unpack_assert_space(more)` failure test for a handler-free context:
`current + more > end`. -/
def unpackNeeds (ctx : cw_unpack_context) (more : Nat) : Prop :=
  ctx.data.length < ctx.current + more

instance (ctx : cw_unpack_context) (more : Nat) : Decidable (unpackNeeds ctx more) :=
  inferInstanceAs (Decidable (_ < _))

/-- The byte at the cursor (`*unpack_context->current`). -/
def byteHere (ctx : cw_unpack_context) : Nat := ctx.data.getD ctx.current 0

/-- Big-endian value of the `w` bytes starting at offset `i` of `data`
(`cw_load16` / `cw_load32` / `cw_load64`, portable path). -/
def loadBE (data : List Nat) (i : Nat) : Nat → Nat
  | 0 => 0
  | w + 1 => loadBE data i w * 256 + data.getD (i + w) 0

/-- `cw_unpack_assert_blob`: demand `item.blobLen` bytes (underflow code),
record the blob start, and advance past the payload. -/
def assert_blob (ctx : cw_unpack_context) : cw_unpack_context × RC :=
  if unpackNeeds ctx ctx.item.blobLen then unpackFail ctx .bufferUnderflow
  else ({ ctx with item := { ctx.item with blobStart := ctx.current },
                   current := ctx.current + ctx.item.blobLen }, .ok)

/-- `getDDItem2`/`getDDItem4`-style numeric tail: type already set; demand `w`
bytes (underflow), load big-endian into the given union slot via `put`. -/
def loadInto (ctx : cw_unpack_context) (w : Nat) (put : cwItem → Nat → cwItem) :
    cw_unpack_context × RC :=
  if unpackNeeds ctx w then unpackFail ctx .bufferUnderflow
  else ({ ctx with item := put ctx.item (loadBE ctx.data ctx.current w),
                   current := ctx.current + w }, .ok)

/-- Signed-int tail shared by cases `0xd0`..`0xd3`: store the sign-extended
value in the numeric slot, then rewrite the type to positive integer when
`item.as.i64 >= 0`. -/
def signedTail (ctx : cw_unpack_context) (w : Nat) : cw_unpack_context × RC :=
  if unpackNeeds ctx w then unpackFail ctx .bufferUnderflow
  else
    let it := { ctx.item with cell := toBits 64 (ofBits (8 * w) (loadBE ctx.data ctx.current w)) }
    let it := if 0 ≤ it.i64 then { it with type := .posInt } else it
    ({ ctx with item := it, current := ctx.current + w }, .ok)

/-- `getDDItemFix(len)`: demand the user type byte, set `type` from it
(signed 8-bit) and `ext.length`, then `cw_unpack_assert_blob`. -/
def fixExtTail (ctx : cw_unpack_context) (len : Nat) : cw_unpack_context × RC :=
  if unpackNeeds ctx 1 then unpackFail ctx .bufferUnderflow
  else
    assert_blob { ctx with
      item := { ctx.item with type := .ext (ofBits 8 (byteHere ctx)), blobLen := len },
      current := ctx.current + 1 }

/-- Variable-length ext tail for `0xc7`..`0xc9`: blob length already set;
demand the user type byte, set `type`, then `cw_unpack_assert_blob`. -/
def extTypeTail (ctx : cw_unpack_context) : cw_unpack_context × RC :=
  if unpackNeeds ctx 1 then unpackFail ctx .bufferUnderflow
  else
    assert_blob { ctx with
      item := { ctx.item with type := .ext (ofBits 8 (byteHere ctx)) },
      current := ctx.current + 1 }

/-- Update only the type field (the first statement of every `getDDItem*`). -/
def setType (ctx : cw_unpack_context) (t : cwItemType) : cw_unpack_context :=
  { ctx with item := { ctx.item with type := t } }

/-- `cw_unpack_next`. -/
def cw_unpack_next (ctx : cw_unpack_context) : cw_unpack_context × RC :=
  if ctx.return_code ≠ .ok then (ctx, .stopped)
  else if unpackNeeds ctx 1 then unpackFail ctx .endOfInput
  else
    let c := byteHere ctx
    let ctx := { ctx with current := ctx.current + 1 }
    if c ≤ 0x7f then                                    -- positive fixnum
      ({ ctx with item := { ctx.item with type := .posInt, cell := c } }, .ok)
    else if c ≤ 0x8f then                               -- fixmap
      ({ ctx with item := { ctx.item with type := .map, size := c &&& 0x0f } }, .ok)
    else if c ≤ 0x9f then                               -- fixarray
      ({ ctx with item := { ctx.item with type := .array, size := c &&& 0x0f } }, .ok)
    else if c ≤ 0xbf then                               -- fixraw
      assert_blob { ctx with item := { ctx.item with type := .str, blobLen := c &&& 0x1f } }
    else if c = 0xc0 then (setType ctx .nil, .ok)       -- nil
    else if c = 0xc2 then                               -- false
      ({ ctx with item := { ctx.item with type := .boolean, boolean := false } }, .ok)
    else if c = 0xc3 then                               -- true
      ({ ctx with item := { ctx.item with type := .boolean, boolean := true } }, .ok)
    else if c = 0xc4 then                               -- bin 8
      match loadInto (setType ctx .bin) 1 (fun it v => { it with blobLen := v }) with
      | (ctx1, .ok) => assert_blob ctx1
      | r => r
    else if c = 0xc5 then                               -- bin 16
      match loadInto (setType ctx .bin) 2 (fun it v => { it with blobLen := v }) with
      | (ctx1, .ok) => assert_blob ctx1
      | r => r
    else if c = 0xc6 then                               -- bin 32
      match loadInto (setType ctx .bin) 4 (fun it v => { it with blobLen := v }) with
      | (ctx1, .ok) => assert_blob ctx1
      | r => r
    else if c = 0xc7 then                               -- ext 8
      match loadInto (setType ctx .extHeader) 1 (fun it v => { it with blobLen := v }) with
      | (ctx1, .ok) => extTypeTail ctx1
      | r => r
    else if c = 0xc8 then                               -- ext 16
      match loadInto (setType ctx .extHeader) 2 (fun it v => { it with blobLen := v }) with
      | (ctx1, .ok) => extTypeTail ctx1
      | r => r
    else if c = 0xc9 then                               -- ext 32
      match loadInto (setType ctx .extHeader) 4 (fun it v => { it with blobLen := v }) with
      | (ctx1, .ok) => extTypeTail ctx1
      | r => r
    else if c = 0xca then                               -- float
      loadInto (setType ctx .float) 4 (fun it v => { it with real32 := v })
    else if c = 0xcb then                               -- double
      loadInto (setType ctx .double) 8 (fun it v => { it with cell := v })
    else if c = 0xcc then                               -- unsigned int 8
      loadInto (setType ctx .posInt) 1 (fun it v => { it with cell := v })
    else if c = 0xcd then                               -- unsigned int 16
      loadInto (setType ctx .posInt) 2 (fun it v => { it with cell := v })
    else if c = 0xce then                               -- unsigned int 32
      loadInto (setType ctx .posInt) 4 (fun it v => { it with cell := v })
    else if c = 0xcf then                               -- unsigned int 64
      loadInto (setType ctx .posInt) 8 (fun it v => { it with cell := v })
    else if c = 0xd0 then signedTail (setType ctx .negInt) 1   -- signed int 8
    else if c = 0xd1 then signedTail (setType ctx .negInt) 2   -- signed int 16
    else if c = 0xd2 then signedTail (setType ctx .negInt) 4   -- signed int 32
    else if c = 0xd3 then signedTail (setType ctx .negInt) 8   -- signed int 64
    else if c = 0xd4 then fixExtTail ctx 1              -- fixext 1
    else if c = 0xd5 then fixExtTail ctx 2              -- fixext 2
    else if c = 0xd6 then fixExtTail ctx 4              -- fixext 4
    else if c = 0xd7 then fixExtTail ctx 8              -- fixext 8
    else if c = 0xd8 then fixExtTail ctx 16             -- fixext 16
    else if c = 0xd9 then                               -- str 8
      match loadInto (setType ctx .str) 1 (fun it v => { it with blobLen := v }) with
      | (ctx1, .ok) => assert_blob ctx1
      | r => r
    else if c = 0xda then                               -- str 16
      match loadInto (setType ctx .str) 2 (fun it v => { it with blobLen := v }) with
      | (ctx1, .ok) => assert_blob ctx1
      | r => r
    else if c = 0xdb then                               -- str 32
      match loadInto (setType ctx .str) 4 (fun it v => { it with blobLen := v }) with
      | (ctx1, .ok) => assert_blob ctx1
      | r => r
    else if c = 0xdc then                               -- array 16
      loadInto (setType ctx .array) 2 (fun it v => { it with size := v })
    else if c = 0xdd then                               -- array 32
      loadInto (setType ctx .array) 4 (fun it v => { it with size := v })
    else if c = 0xde then                               -- map 16
      loadInto (setType ctx .map) 2 (fun it v => { it with size := v })
    else if c = 0xdf then                               -- map 32
      loadInto (setType ctx .map) 4 (fun it v => { it with size := v })
    else if 0xe0 ≤ c ∧ c ≤ 0xff then                    -- negative fixnum
      ({ ctx with item := { ctx.item with cell := toBits 64 (ofBits 8 c), type := .negInt } },
        .ok)
    else unpackFail ctx .malformedInput                 -- reserved (0xc1)

/-!  ## `cw_skip_items`  -/

/-- Action of one arm of the `cw_skip_items` switch:
`done` = plain `break`; `skip n` = `cw_skip_bytes(n)`;
`lenSkip w extra` = load a `w`-byte length `L`, then `cw_skip_bytes(L+extra)`;
`count0 n` = `item_count += n` (count already scaled for maps);
`countLoad w mult` = load a `w`-byte count `n`, then `item_count += mult*n`. -/
inductive SkipAct where
  | done
  | skip (n : Nat)
  | lenSkip (w extra : Nat)
  | count0 (n : Nat)
  | countLoad (w mult : Nat)
  | illegal
  deriving DecidableEq, Repr

/-- The `cw_skip_items` switch, as a classification of the prefix byte. -/
def skipClass (c : Nat) : SkipAct :=
  if c ≤ 0x7f then .done                                   -- unsigned fixint
  else if 0x80 ≤ c ∧ c ≤ 0x8f then .count0 (2 * (c &&& 15)) -- FixMap
  else if 0x90 ≤ c ∧ c ≤ 0x9f then .count0 (c &&& 15)      -- FixArray
  else if 0xa0 ≤ c ∧ c ≤ 0xbf then .skip (c &&& 0x1f)      -- fixstr
  else if c = 0xc0 ∨ c = 0xc2 ∨ c = 0xc3 then .done        -- nil / false / true
  else if c = 0xcc ∨ c = 0xd0 then .skip 1                 -- int 8
  else if c = 0xcd ∨ c = 0xd1 ∨ c = 0xd4 then .skip 2      -- int 16 / fixext 1
  else if c = 0xd5 then .skip 3                            -- fixext 2
  else if c = 0xca ∨ c = 0xce ∨ c = 0xd2 then .skip 4      -- float / int 32
  else if c = 0xd6 then .skip 5                            -- fixext 4
  else if c = 0xcb ∨ c = 0xcf ∨ c = 0xd3 then .skip 8      -- double / int 64
  else if c = 0xd7 then .skip 9                            -- fixext 8
  else if c = 0xd8 then .skip 17                           -- fixext 16
  else if c = 0xd9 ∨ c = 0xc4 then .lenSkip 1 0            -- str 8 / bin 8
  else if c = 0xda ∨ c = 0xc5 then .lenSkip 2 0            -- str 16 / bin 16
  else if c = 0xdb ∨ c = 0xc6 then .lenSkip 4 0            -- str 32 / bin 32
  else if c = 0xdc then .countLoad 2 1                     -- array 16
  else if c = 0xde then .countLoad 2 2                     -- map 16
  else if c = 0xdd then .countLoad 4 1                     -- array 32
  else if c = 0xdf then .countLoad 4 2                     -- map 32
  else if c = 0xc7 then .lenSkip 1 1                       -- ext 8
  else if c = 0xc8 then .lenSkip 2 1                       -- ext 16
  else if c = 0xc9 then .lenSkip 4 1                       -- ext 32
  else if 0xe0 ≤ c ∧ c ≤ 0xff then .done                   -- signed fixint
  else .illegal

/-- One iteration of the `cw_skip_items` loop, entered with the (already
pre-decremented) `item_count = n - 1` bundled as `n`: demand the prefix byte
(end-of-input code), dispatch, and either return fatally (`inl`) or continue
with the new context and counter (`inr`). -/
def cw_skip_iter (ctx : cw_unpack_context) (n : Int) :
    (cw_unpack_context × RC) ⊕ (cw_unpack_context × Int) :=
  if unpackNeeds ctx 1 then .inl (unpackFail ctx .endOfInput)
  else
    let c := byteHere ctx
    let ctx1 : cw_unpack_context := { ctx with current := ctx.current + 1 }
    match skipClass c with
    | .done => .inr (ctx1, n - 1)
    | .skip m =>
        if unpackNeeds ctx1 m then .inl (unpackFail ctx1 .bufferUnderflow)
        else .inr ({ ctx1 with current := ctx1.current + m }, n - 1)
    | .lenSkip w extra =>
        if unpackNeeds ctx1 w then .inl (unpackFail ctx1 .bufferUnderflow)
        else
          let L := loadBE ctx1.data ctx1.current w
          let ctx2 : cw_unpack_context := { ctx1 with current := ctx1.current + w }
          if unpackNeeds ctx2 (L + extra) then .inl (unpackFail ctx2 .bufferUnderflow)
          else .inr ({ ctx2 with current := ctx2.current + (L + extra) }, n - 1)
    | .count0 m => .inr (ctx1, n - 1 + m)
    | .countLoad w mult =>
        if unpackNeeds ctx1 w then .inl (unpackFail ctx1 .bufferUnderflow)
        else .inr ({ ctx1 with current := ctx1.current + w },
                   n - 1 + mult * loadBE ctx1.data ctx1.current w)
    | .illegal => .inl (unpackFail ctx1 .malformedInput)

/-- A continuing iteration strictly advances the cursor and never touches the
buffer or the item record. -/
theorem cw_skip_iter_inr {ctx : cw_unpack_context} {n : Int} {ctx' : cw_unpack_context}
    {n' : Int} (h : cw_skip_iter ctx n = .inr (ctx', n')) :
    ctx'.data = ctx.data ∧ ctx.current < ctx'.current ∧ ctx.current < ctx.data.length ∧
      ctx'.return_code = ctx.return_code ∧ ctx'.item = ctx.item := by
  by_cases h1 : unpackNeeds ctx 1
  · rw [cw_skip_iter, if_pos h1] at h
    exact absurd h (by simp)
  · have hcur : ctx.current < ctx.data.length := by
      unfold unpackNeeds at h1; omega
    cases hc : skipClass (byteHere ctx) <;>
      simp only [cw_skip_iter, if_neg h1, hc] at h <;>
      (try split at h) <;> (try split at h) <;> simp_all <;>
      (rcases h with ⟨rfl, rfl⟩; exact ⟨rfl, by dsimp only; omega, rfl, rfl⟩)

/-- The loop of `cw_skip_items` (`while (item_count-- > 0)`). -/
def cw_skip_loop (ctx : cw_unpack_context) (n : Int) : cw_unpack_context × RC :=
  if n ≤ 0 then (ctx, .ok)
  else
    match h : cw_skip_iter ctx n with
    | .inl r => r
    | .inr (ctx', n') => cw_skip_loop ctx' n'
termination_by ctx.data.length - ctx.current
decreasing_by
  obtain ⟨hd, hlt, hin, -, -⟩ := cw_skip_iter_inr h
  have : ctx'.data.length = ctx.data.length := by rw [hd]
  omega

/-- `cw_skip_items`. -/
def cw_skip_items (ctx : cw_unpack_context) (item_count : Int) : cw_unpack_context × RC :=
  if ctx.return_code ≠ .ok then (ctx, .stopped)
  else cw_skip_loop ctx item_count

/-- The all-zero item record an initialized context starts from. -/
def zeroItem : cwItem := ⟨.nil, 0, false, 0, 0, 0, 0⟩

/-- A fresh unpack context over buffer `data`
(`cw_unpack_context_init`, no handler). -/
def initUnpack (data : List Nat) : cw_unpack_context := ⟨data, 0, .ok, zeroItem⟩

example : (cw_unpack_next (initUnpack [0x07])).1.item.type = .posInt := by decide
example : (cw_unpack_next (initUnpack [0x07])).1.item.u64 = 7 := by decide
example : (cw_unpack_next (initUnpack [0xcd, 0x12, 0x34])).1.item.u64 = 0x1234 := by decide
example : (cw_unpack_next (initUnpack [0xd0, 0xdf])).1.item.i64 = -33 := by decide
example : (cw_unpack_next (initUnpack [0xd0, 0x05])).1.item.type = .posInt := by decide
example : (cw_unpack_next (initUnpack [0xff])).1.item.i64 = -1 := by decide
example : (cw_unpack_next (initUnpack [0xa2, 0x68, 0x69])).1.item.type = .str := by decide
example : (cw_unpack_next (initUnpack [0xa2, 0x68, 0x69])).1.current = 3 := by decide
example : (cw_unpack_next (initUnpack [0xd4, 0x07, 0x01])).1.item.type = .ext 7 := by decide
example : (cw_unpack_next (initUnpack [])).2 = .endOfInput := by decide
example : (cw_unpack_next (initUnpack [0xcd])).2 = .bufferUnderflow := by decide
example : (cw_unpack_next (initUnpack [0xc1])).2 = .malformedInput := by decide

example : (cw_pack_unsigned (initPack 9) 0).1.out = [0x00] := by decide
example : (cw_pack_unsigned (initPack 9) 255).1.out = [0xcc, 0xff] := by decide
example : (cw_pack_unsigned (initPack 9) 0x1234).1.out = [0xcd, 0x12, 0x34] := by decide
example : (cw_pack_signed (initPack 9) (-1)).1.out = [0xff] := by decide
example : (cw_pack_signed (initPack 9) (-33)).1.out = [0xd0, 0xdf] := by decide
example : (cw_pack_signed (initPack 9) (-1000)).1.out = [0xd1, 0xfc, 0x18] := by decide
example : (cw_pack_str (initPack 9) [0x68, 0x69] 2).1.out = [0xa2, 0x68, 0x69] := by decide
example : (cw_pack_ext (initPack 9) 7 [1] 1).1.out = [0xd4, 7, 1] := by decide

/-!  ## Claims  -/

/-- C8: exact byte sequences: `nil; true; false` gives `c0 c3 c2`;
`str "hi"` gives `a2 68 69`; `ext(7, 01, 1)` gives `d4 07 01`. -/
theorem claim_C8_byte_vectors :
    (cw_pack_boolean (cw_pack_boolean (cw_pack_nil (initPack 3)).1 true).1 false).1.out
        = [0xc0, 0xc3, 0xc2] ∧
      (cw_pack_str (initPack 3) [0x68, 0x69] 2).1.out = [0xa2, 0x68, 0x69] ∧
      (cw_pack_ext (initPack 3) 7 [0x01] 1).1.out = [0xd4, 0x07, 0x01] := by
  refine ⟨by decide, by decide, by decide⟩

/-- C4: the return code is sticky: on a poisoned context every packing
operation, `cw_unpack_next` and `cw_skip_items` return the stopped code at
once, leaving the context (buffer, cursor, item) untouched. -/
theorem claim_C4_sticky_return_code
    (pctx : cw_pack_context) (hp : pctx.return_code ≠ .ok)
    (uctx : cw_unpack_context) (hu : uctx.return_code ≠ .ok)
    (i : Nat) (j : Int) (b : Bool) (f d n l : Nat) (t : Int) (v : List Nat) (k : Int) :
    cw_pack_unsigned pctx i = (pctx, .stopped) ∧
      cw_pack_signed pctx j = (pctx, .stopped) ∧
      cw_pack_float pctx f = (pctx, .stopped) ∧
      cw_pack_double pctx d = (pctx, .stopped) ∧
      cw_pack_nil pctx = (pctx, .stopped) ∧
      cw_pack_boolean pctx b = (pctx, .stopped) ∧
      cw_pack_array_size pctx n = (pctx, .stopped) ∧
      cw_pack_map_size pctx n = (pctx, .stopped) ∧
      cw_pack_str pctx v l = (pctx, .stopped) ∧
      cw_pack_bin pctx v l = (pctx, .stopped) ∧
      cw_pack_ext pctx t v l = (pctx, .stopped) ∧
      cw_unpack_next uctx = (uctx, .stopped) ∧
      cw_skip_items uctx k = (uctx, .stopped) := by
  refine ⟨?_, ?_, ?_, ?_, ?_, ?_, ?_, ?_, ?_, ?_, ?_, ?_, ?_⟩ <;>
    simp [cw_pack_unsigned, cw_pack_signed, cw_pack_float, cw_pack_double, cw_pack_nil,
      cw_pack_boolean, cw_pack_array_size, cw_pack_map_size, cw_pack_str, cw_pack_bin,
      cw_pack_ext, cw_unpack_next, cw_skip_items, hp, hu]

/-- Witness for C4 at a concrete poisoned pack and unpack context. -/
theorem claim_C4_sticky_return_code_witness :
    cw_pack_unsigned ⟨[], 9, .bufferOverflow⟩ 5 = (⟨[], 9, .bufferOverflow⟩, .stopped) ∧
      cw_unpack_next ⟨[0x00], 0, .malformedInput, zeroItem⟩
        = (⟨[0x00], 0, .malformedInput, zeroItem⟩, .stopped) := by
  have h := claim_C4_sticky_return_code ⟨[], 9, .bufferOverflow⟩ (by decide)
    ⟨[0x00], 0, .malformedInput, zeroItem⟩ (by decide) 5 0 false 0 0 0 0 0 [] 1
  exact ⟨h.1, h.2.2.2.2.2.2.2.2.2.2.2.1⟩

/-- C5: end-of-buffer discrimination: a missing first prefix byte yields
end-of-input; a missing later byte of the same item yields buffer underflow.
In particular every one-byte buffer holding a multi-byte tag (fixstr with
non-zero length, or any tag in `0xc4..0xdf`) yields buffer underflow, the
empty buffer yields end-of-input, and `[0xcd]` yields buffer underflow. -/
theorem claim_C5_underflow_boundary :
    (∀ ctx : cw_unpack_context, ctx.return_code = .ok → ctx.data.length ≤ ctx.current →
        cw_unpack_next ctx = ({ ctx with return_code := .endOfInput }, .endOfInput)) ∧
      (∀ c < 0xe0, (0xa1 ≤ c ∧ c ≤ 0xbf) ∨ 0xc4 ≤ c →
        (cw_unpack_next (initUnpack [c])).2 = .bufferUnderflow ∧
          (cw_unpack_next (initUnpack [c])).1.return_code = .bufferUnderflow) ∧
      cw_unpack_next (initUnpack []) = (⟨[], 0, .endOfInput, zeroItem⟩, .endOfInput) ∧
      (cw_unpack_next (initUnpack [0xcd])).2 = .bufferUnderflow ∧
      (cw_unpack_next (initUnpack [0xcd])).1.return_code = .bufferUnderflow := by
  refine ⟨?_, by decide, by decide, by decide, by decide⟩
  intro ctx h1 h2
  have : ¬ ctx.return_code ≠ .ok := by simp [h1]
  rw [cw_unpack_next, if_neg this, if_pos (by unfold unpackNeeds; omega)]
  rfl

/-- Witness for C5 at the two concrete vectors of the claim. -/
theorem claim_C5_underflow_boundary_witness :
    cw_unpack_next (initUnpack []) = (⟨[], 0, .endOfInput, zeroItem⟩, .endOfInput) ∧
      (cw_unpack_next (initUnpack [0xcd])).2 = .bufferUnderflow := by
  have h := claim_C5_underflow_boundary
  exact ⟨h.1 (initUnpack []) rfl (by decide), h.2.2.2.1⟩

/-- C6: the reserved prefix `0xc1` yields malformed input, stores it as the
sticky code, and the next `cw_unpack_next` or `cw_skip_items` call returns
stopped. -/
theorem claim_C6_malformed_poisons :
    (cw_unpack_next (initUnpack [0xc1])).2 = .malformedInput ∧
      (cw_unpack_next (initUnpack [0xc1])).1.return_code = .malformedInput ∧
      cw_unpack_next (cw_unpack_next (initUnpack [0xc1])).1
        = ((cw_unpack_next (initUnpack [0xc1])).1, .stopped) ∧
      cw_skip_items (cw_unpack_next (initUnpack [0xc1])).1 1
        = ((cw_unpack_next (initUnpack [0xc1])).1, .stopped) := by
  refine ⟨by decide, by decide, ?_, ?_⟩ <;>
    simp [cw_unpack_next, cw_skip_items, initUnpack, unpackNeeds, unpackFail, byteHere]

/-- C10: `cw_skip_items` with a non-positive count on a healthy context is a
no-op: it returns OK and leaves the whole context (cursor included)
unchanged, demanding no bytes even from an empty window. -/
theorem claim_C10_skip_zero (ctx : cw_unpack_context) (h : ctx.return_code = .ok)
    (n : Int) (hn : n ≤ 0) : cw_skip_items ctx n = (ctx, .ok) := by
  rw [cw_skip_items, if_neg (by simp [h]), cw_skip_loop, if_pos hn]

/-- Witness for C10: skipping zero items of an exhausted buffer succeeds. -/
theorem claim_C10_skip_zero_witness :
    cw_skip_items (initUnpack []) 0 = (initUnpack [], .ok) :=
  claim_C10_skip_zero (initUnpack []) rfl 0 (by decide)

/-!  ## C2: shortest-form encodings  -/

/-- Big-endian byte string of fixed width `w` (spec side: "multi-byte fields
are big-endian"). -/
def beBytes : Nat → Nat → List Nat
  | 0, _ => []
  | w + 1, v => beBytes w (v / 256) ++ [v % 256]

/-- The claim's encoding table for unsigned values: shortest legal form. -/
def shortestUnsigned (v : Nat) : List Nat :=
  if v < 128 then [v]
  else if v < 256 then 0xcc :: beBytes 1 v
  else if v < 65536 then 0xcd :: beBytes 2 v
  else if v < 4294967296 then 0xce :: beBytes 4 v
  else 0xcf :: beBytes 8 v

/-- The claim's encoding table for signed values: non-negative values delegate
to the unsigned ladder; negative ones use the two's complement pattern of the
chosen width, big-endian. -/
def shortestSigned (i : Int) : List Nat :=
  if 0 ≤ i then shortestUnsigned i.toNat
  else if -32 ≤ i then beBytes 1 (toBits 8 i)
  else if -128 ≤ i then 0xd0 :: beBytes 1 (toBits 8 i)
  else if -32768 ≤ i then 0xd1 :: beBytes 2 (toBits 16 i)
  else if -(2 ^ 31) ≤ i then 0xd2 :: beBytes 4 (toBits 32 i)
  else 0xd3 :: beBytes 8 (toBits 64 i)

theorem cw_store16_eq (d : Nat) : cw_store16 d = beBytes 2 d := by
  simp [cw_store16, beBytes, byteAt, Nat.shiftRight_eq_div_pow]

theorem cw_store32_eq (d : Nat) : cw_store32 d = beBytes 4 d := by
  simp [cw_store32, beBytes, byteAt, Nat.shiftRight_eq_div_pow, Nat.div_div_eq_div_mul]

theorem cw_store64_eq (d : Nat) : cw_store64 d = beBytes 8 d := by
  simp [cw_store64, beBytes, byteAt, Nat.shiftRight_eq_div_pow, Nat.div_div_eq_div_mul]

theorem toBits_lt (w : Nat) (i : Int) : toBits w i < 2 ^ w := by
  unfold toBits
  have h1 : 0 ≤ i % (2 ^ w : Int) := Int.emod_nonneg _ (by positivity)
  have h2 : i % (2 ^ w : Int) < (2 ^ w : Int) := Int.emod_lt_of_pos _ (by positivity)
  have h3 : ((i % (2 ^ w : Int)).toNat : Int) = i % (2 ^ w : Int) := Int.toNat_of_nonneg h1
  have h4 : ((i % (2 ^ w : Int)).toNat : Int) < ((2 ^ w : Nat) : Int) := by push_cast; omega
  exact_mod_cast h4

/-- C2: `cw_pack_unsigned` and `cw_pack_signed` emit exactly the shortest
legal MessagePack encoding, big-endian, appended to the window. -/
theorem claim_C2_shortest_encoding (ctx : cw_pack_context) (h : ctx.return_code = .ok)
    (hroom : 9 ≤ ctx.cap - ctx.out.length) :
    (∀ i : Nat, i < 2 ^ 64 →
        cw_pack_unsigned ctx i = ({ ctx with out := ctx.out ++ shortestUnsigned i }, .ok)) ∧
      (∀ i : Int, -(2 ^ 63) ≤ i → i < 2 ^ 63 →
        cw_pack_signed ctx i = ({ ctx with out := ctx.out ++ shortestSigned i }, .ok)) := by
  have hne : ¬ ctx.return_code ≠ .ok := by simp [h]
  have hres : ∀ k, k ≤ 9 → ¬ packNeeds ctx k := by
    intro k hk; unfold packNeeds; omega
  constructor
  · intro i _
    rw [cw_pack_unsigned, if_neg hne]
    unfold shortestUnsigned
    split_ifs with h1 h2 h3 h4
    · simp [tryMove0, if_neg (hres 1 (by omega)), Nat.mod_eq_of_lt (show i < 256 by omega)]
    · simp [tryMove1, if_neg (hres 2 (by omega)), beBytes]
    · simp [tryMove2, if_neg (hres 3 (by omega)), cw_store16_eq]
    · simp [tryMove4, if_neg (hres 5 (by omega)), cw_store32_eq]
    · simp [tryMove8, if_neg (hres 9 (by omega)), cw_store64_eq]
  · intro i _ _
    rw [cw_pack_signed, if_neg hne]
    unfold shortestSigned
    have h8 := toBits_lt 8 i
    split_ifs with h1 h2 h3 h4 h5
    · rw [cw_pack_unsigned, if_neg hne]
      unfold shortestUnsigned
      split_ifs with g1 g2 g3 g4
      · simp [tryMove0, if_neg (hres 1 (by omega)),
          Nat.mod_eq_of_lt (show i.toNat < 256 by omega)]
      · simp [tryMove1, if_neg (hres 2 (by omega)), beBytes]
      · simp [tryMove2, if_neg (hres 3 (by omega)), cw_store16_eq]
      · simp [tryMove4, if_neg (hres 5 (by omega)), cw_store32_eq]
      · simp [tryMove8, if_neg (hres 9 (by omega)), cw_store64_eq]
    · simp only [tryMove0, if_neg (hres 1 (by omega)), beBytes]
      simp [Nat.mod_eq_of_lt (show toBits 8 i < 256 by omega)]
    · simp only [tryMove1, if_neg (hres 2 (by omega)), beBytes]
      simp [Nat.mod_eq_of_lt (show toBits 8 i < 256 by omega)]
    · rw [tryMove2, if_neg (hres 3 (by omega)), cw_store16_eq]
    · rw [tryMove4, if_neg (hres 5 (by omega)), cw_store32_eq]
    · rw [tryMove8, if_neg (hres 9 (by omega)), cw_store64_eq]

/-- Witness for C2 at concrete inputs in every unsigned rung and a negative
rung: 5, 255, 40000, 2^32, 2^63 and -5000. -/
theorem claim_C2_shortest_encoding_witness :
    cw_pack_unsigned (initPack 9) 40000 = (⟨[0xcd, 0x9c, 0x40], 9, .ok⟩, .ok) ∧
      cw_pack_signed (initPack 9) (-5000) = (⟨[0xd1, 0xec, 0x78], 9, .ok⟩, .ok) := by
  have h := claim_C2_shortest_encoding (initPack 9) rfl (by decide)
  refine ⟨?_, ?_⟩
  · rw [h.1 40000 (by norm_num)]; decide
  · rw [h.2 (-5000) (by norm_num) (by norm_num)]; decide

/-!  ## C7: buffer overflow on a handler-free packer  -/

/-- Bytes reserved by `cw_pack_unsigned` (its `cw_pack_reserve_space` calls). -/
def reserveUnsigned (i : Nat) : Nat :=
  if i < 128 then 1 else if i < 256 then 2
  else if i < 65536 then 3 else if i < 4294967296 then 5 else 9

/-- Bytes reserved by `cw_pack_signed`. -/
def reserveSigned (i : Int) : Nat :=
  if 0 ≤ i then reserveUnsigned i.toNat
  else if -32 ≤ i then 1 else if -128 ≤ i then 2
  else if -32768 ≤ i then 3 else if -(2 ^ 31) ≤ i then 5 else 9

/-- Bytes reserved by `cw_pack_array_size`. -/
def reserveArray (n : Nat) : Nat := if n < 16 then 1 else if n < 65536 then 3 else 5

/-- Bytes reserved by `cw_pack_map_size`. -/
def reserveMap (n : Nat) : Nat := if n < 16 then 1 else if n < 65536 then 3 else 5

/-- Bytes reserved by `cw_pack_str` (header and payload together). -/
def reserveStr (l : Nat) : Nat :=
  if l < 32 then l + 1 else if l < 256 then l + 2 else if l < 65536 then l + 3 else l + 5

/-- Bytes reserved by `cw_pack_bin`. -/
def reserveBin (l : Nat) : Nat :=
  if l < 256 then l + 2 else if l < 65536 then l + 3 else l + 5

/-- Bytes reserved by `cw_pack_ext`. -/
def reserveExt (l : Nat) : Nat :=
  if l = 1 then 3 else if l = 2 then 4 else if l = 4 then 6 else if l = 8 then 10
  else if l = 16 then 18 else if l < 256 then l + 3 else if l < 65536 then l + 4 else l + 6

/-- C7: every packing operation on a handler-free context whose window is
smaller than the bytes the item needs returns buffer overflow, records it as
the sticky code, and writes nothing (the window `out`, hence `current`, is
unchanged). -/
theorem claim_C7_overflow (ctx : cw_pack_context) (h : ctx.return_code = .ok) :
    (∀ i, packNeeds ctx (reserveUnsigned i) →
        cw_pack_unsigned ctx i = ({ ctx with return_code := .bufferOverflow }, .bufferOverflow)) ∧
      (∀ i, packNeeds ctx (reserveSigned i) →
        cw_pack_signed ctx i = ({ ctx with return_code := .bufferOverflow }, .bufferOverflow)) ∧
      (∀ f, packNeeds ctx 5 →
        cw_pack_float ctx f = ({ ctx with return_code := .bufferOverflow }, .bufferOverflow)) ∧
      (∀ d, packNeeds ctx 9 →
        cw_pack_double ctx d = ({ ctx with return_code := .bufferOverflow }, .bufferOverflow)) ∧
      (packNeeds ctx 1 →
        cw_pack_nil ctx = ({ ctx with return_code := .bufferOverflow }, .bufferOverflow)) ∧
      (∀ b, packNeeds ctx 1 →
        cw_pack_boolean ctx b = ({ ctx with return_code := .bufferOverflow }, .bufferOverflow)) ∧
      (∀ n, packNeeds ctx (reserveArray n) →
        cw_pack_array_size ctx n
          = ({ ctx with return_code := .bufferOverflow }, .bufferOverflow)) ∧
      (∀ n, packNeeds ctx (reserveMap n) →
        cw_pack_map_size ctx n = ({ ctx with return_code := .bufferOverflow }, .bufferOverflow)) ∧
      (∀ v l, packNeeds ctx (reserveStr l) →
        cw_pack_str ctx v l = ({ ctx with return_code := .bufferOverflow }, .bufferOverflow)) ∧
      (∀ v l, packNeeds ctx (reserveBin l) →
        cw_pack_bin ctx v l = ({ ctx with return_code := .bufferOverflow }, .bufferOverflow)) ∧
      (∀ t v l, packNeeds ctx (reserveExt l) →
        cw_pack_ext ctx t v l = ({ ctx with return_code := .bufferOverflow }, .bufferOverflow)) := by
  have hne : ¬ ctx.return_code ≠ .ok := by simp [h]
  refine ⟨?_, ?_, ?_, ?_, ?_, ?_, ?_, ?_, ?_, ?_, ?_⟩
  · intro i hi
    rw [cw_pack_unsigned, if_neg hne]
    unfold reserveUnsigned at hi
    split_ifs at hi ⊢ <;> simp [tryMove0, tryMove1, tryMove2, tryMove4, tryMove8, hi, packFail]
  · intro i hi
    rw [cw_pack_signed, if_neg hne]
    unfold reserveSigned at hi
    split_ifs at hi ⊢ with h1
    · rw [cw_pack_unsigned, if_neg hne]
      unfold reserveUnsigned at hi
      split_ifs at hi ⊢ <;>
        simp [tryMove0, tryMove1, tryMove2, tryMove4, tryMove8, hi, packFail]
    all_goals simp [tryMove0, tryMove1, tryMove2, tryMove4, tryMove8, hi, packFail]
  · intro f hf
    rw [cw_pack_float, if_neg hne]
    simp [tryMove4, hf, packFail]
  · intro d hd
    rw [cw_pack_double, if_neg hne]
    simp [tryMove8, hd, packFail]
  · intro h1
    rw [cw_pack_nil, if_neg hne]
    simp [tryMove0, h1, packFail]
  · intro b h1
    rw [cw_pack_boolean, if_neg hne]
    simp [tryMove0, h1, packFail]
  · intro n hn
    rw [cw_pack_array_size, if_neg hne]
    unfold reserveArray at hn
    split_ifs at hn ⊢ <;> simp [tryMove0, tryMove2, tryMove4, hn, packFail]
  · intro n hn
    rw [cw_pack_map_size, if_neg hne]
    unfold reserveMap at hn
    split_ifs at hn ⊢ <;> simp [tryMove0, tryMove2, tryMove4, hn, packFail]
  · intro v l hl
    rw [cw_pack_str, if_neg hne]
    unfold reserveStr at hl
    split_ifs at hl ⊢ <;> simp [hl, packFail]
  · intro v l hl
    rw [cw_pack_bin, if_neg hne]
    unfold reserveBin at hl
    split_ifs at hl ⊢ <;> simp [hl, packFail]
  · intro t v l hl
    rw [cw_pack_ext, if_neg hne]
    unfold reserveExt at hl
    split_ifs at hl ⊢ <;> simp [hl, packFail]

/-- Witness for C7: a one-byte window cannot take a two-byte item, and the
failed item writes nothing. -/
theorem claim_C7_overflow_witness :
    cw_pack_unsigned (initPack 1) 200 = (⟨[], 1, .bufferOverflow⟩, .bufferOverflow) ∧
      cw_pack_str (initPack 2) [0x68, 0x69] 2 = (⟨[], 2, .bufferOverflow⟩, .bufferOverflow) := by
  have h1 := (claim_C7_overflow (initPack 1) rfl).1 200 (by decide)
  have h2 := (claim_C7_overflow (initPack 2) rfl).2.2.2.2.2.2.2.2.1 [0x68, 0x69] 2 (by decide)
  exact ⟨h1, h2⟩

/-!  ## C9: the three endian code paths

`hostReadLE`/`hostReadBE` give the value a direct (aligned) `uintN_t` load
yields on a little-endian or big-endian host; a direct store on such a host
lays the value down LSB-first or MSB-first respectively.  `swap32`/`swap64` are the byte-swap
expressions of the `COMPILE_FOR_LITTLE_ENDIAN` macros, with each left shift
truncated to the C operand width.  -/

/-- Value of a direct `w`-byte load at offset `i` on a little-endian host. -/
def hostReadLE (data : List Nat) (i : Nat) : Nat → Nat
  | 0 => 0
  | w + 1 => data.getD i 0 + 256 * hostReadLE data (i + 1) w

/-- The `cw_store32` byte-swap expression of the little-endian path. -/
def swap32 (x : Nat) : Nat :=
  (x >>> 24) ||| ((x &&& 0x00ff0000) >>> 8) ||| ((x &&& 0x0000ff00) <<< 8) |||
    ((x <<< 24) % 2 ^ 32)

/-- The `cw_store64`/`cw_load64` byte-swap expression of the little-endian
path. -/
def swap64 (x : Nat) : Nat :=
  (((x >>> 40) ||| ((x <<< 24) % 2 ^ 64)) &&& 0x0000ff000000ff00) |||
    (((x >>> 24) ||| ((x <<< 40) % 2 ^ 64)) &&& 0x00ff000000ff0000) |||
    ((x &&& 0x000000ff00000000) >>> 8) |||
    ((x &&& 0x00000000ff000000) <<< 8) |||
    (x >>> 56) ||| ((x <<< 56) % 2 ^ 64)

/-- `cw_load64`, `COMPILE_FOR_BIG_ENDIAN` path: a direct big-endian load of
8 bytes, after which `current += 4` — exactly as in the source. -/
def cw_load64_be (data : List Nat) (i : Nat) : Nat × Nat := (loadBE data i 8, 4)

/-- `cw_load64`, `COMPILE_FOR_LITTLE_ENDIAN` path: direct little-endian load
of 8 bytes (`q += 8`), then the byte-swap expression. -/
def cw_load64_le (data : List Nat) (i : Nat) : Nat × Nat := (swap64 (hostReadLE data i 8), 8)

/-- `cw_load64`, portable (byte-order-undetermined) path: eight single-byte
loads combined with shifts. -/
def cw_load64_shift (data : List Nat) (i : Nat) : Nat × Nat :=
  (data.getD i 0 <<< 56 ||| data.getD (i + 1) 0 <<< 48 ||| data.getD (i + 2) 0 <<< 40 |||
    data.getD (i + 3) 0 <<< 32 ||| data.getD (i + 4) 0 <<< 24 ||| data.getD (i + 5) 0 <<< 16 |||
    data.getD (i + 6) 0 <<< 8 ||| data.getD (i + 7) 0, 8)

/-- `cw_store64`, `COMPILE_FOR_BIG_ENDIAN` path: direct store lays the value
down MSB-first; `current += 8`. -/
def cw_store64_be (x : Nat) : List Nat × Nat := (cw_store64 x, 8)

/-- `cw_store64`, little-endian path: byte-swap then direct store, which on a
little-endian host lays the swapped value down LSB-first; `current += 8`. -/
def cw_store64_le (x : Nat) : List Nat × Nat :=
  ([byteAt (swap64 x) 0, byteAt (swap64 x) 1, byteAt (swap64 x) 2, byteAt (swap64 x) 3,
    byteAt (swap64 x) 4, byteAt (swap64 x) 5, byteAt (swap64 x) 6, byteAt (swap64 x) 7], 8)

/-- `cw_store64`, portable path: per-byte shifts, `current += 8`. -/
def cw_store64_shift (x : Nat) : List Nat × Nat := (cw_store64 x, 8)

/-- C9 (code bug): at the concrete 8-byte input `01..08` all three `cw_load64`
implementations read the same value `0x0102030405060708` and the three
`cw_store64` implementations write identical big-endian bytes and advance by
8 — but the big-endian `cw_load64` advances `current` by 4 while the other
two advance by 8, falsifying the equal-advance part of the claim. -/
theorem claim_C9_endian_paths :
    (cw_load64_be [1, 2, 3, 4, 5, 6, 7, 8] 0).1 = 0x0102030405060708 ∧
      (cw_load64_le [1, 2, 3, 4, 5, 6, 7, 8] 0).1 = 0x0102030405060708 ∧
      (cw_load64_shift [1, 2, 3, 4, 5, 6, 7, 8] 0).1 = 0x0102030405060708 ∧
      cw_store64_be 0x0102030405060708 = ([1, 2, 3, 4, 5, 6, 7, 8], 8) ∧
      cw_store64_le 0x0102030405060708 = ([1, 2, 3, 4, 5, 6, 7, 8], 8) ∧
      cw_store64_shift 0x0102030405060708 = ([1, 2, 3, 4, 5, 6, 7, 8], 8) ∧
      (cw_load64_le [1, 2, 3, 4, 5, 6, 7, 8] 0).2 = 8 ∧
      (cw_load64_shift [1, 2, 3, 4, 5, 6, 7, 8] 0).2 = 8 ∧
      (cw_load64_be [1, 2, 3, 4, 5, 6, 7, 8] 0).2 = 4 := by
  decide

/-!  ## C1: round-trip identity  -/

/-- The representable item domain: one constructor per `cw_pack_*` operation.
Floats and doubles are carried as their IEEE-754 bit patterns (the C code
moves only the bit pattern). -/
inductive CWValue where
  | vnil
  | vbool (b : Bool)
  | vuns (v : Nat)
  | vsgn (i : Int)
  | vfloat (bits : Nat)
  | vdouble (bits : Nat)
  | varray (n : Nat)
  | vmap (n : Nat)
  | vstr (s : List Nat)
  | vbin (s : List Nat)
  | vext (t : Int) (s : List Nat)

/-- Domain bounds of the C argument types (`uint64_t`, `int64_t`, `uint32_t`
lengths and sizes, `int8_t` ext type). -/
def ValidValue : CWValue → Prop
  | .vnil => True
  | .vbool _ => True
  | .vuns v => v < 2 ^ 64
  | .vsgn i => -(2 ^ 63) ≤ i ∧ i < 2 ^ 63
  | .vfloat b => b < 2 ^ 32
  | .vdouble b => b < 2 ^ 64
  | .varray n => n < 2 ^ 32
  | .vmap n => n < 2 ^ 32
  | .vstr s => s.length < 2 ^ 32
  | .vbin s => s.length < 2 ^ 32
  | .vext t s => -128 ≤ t ∧ t ≤ 127 ∧ s.length < 2 ^ 32

/-- Dispatch to the corresponding `cw_pack_*` operation. -/
def packValue (ctx : cw_pack_context) : CWValue → cw_pack_context × RC
  | .vnil => cw_pack_nil ctx
  | .vbool b => cw_pack_boolean ctx b
  | .vuns v => cw_pack_unsigned ctx v
  | .vsgn i => cw_pack_signed ctx i
  | .vfloat b => cw_pack_float ctx b
  | .vdouble b => cw_pack_double ctx b
  | .varray n => cw_pack_array_size ctx n
  | .vmap n => cw_pack_map_size ctx n
  | .vstr s => cw_pack_str ctx s s.length
  | .vbin s => cw_pack_bin ctx s s.length
  | .vext t s => cw_pack_ext ctx t s s.length

/-- A sufficient buffer capacity for one item. -/
def capFor : CWValue → Nat
  | .vstr s => s.length + 9
  | .vbin s => s.length + 9
  | .vext _ s => s.length + 18
  | _ => 9

/-- The read-back item has the category and value of `v`; blob payloads are
compared through the zero-copy descriptor (the slice of the buffer it
points at).  A non-negative signed value travels on the unsigned wire and is
reported as a positive integer. -/
def matchesItem (v : CWValue) (u : cw_unpack_context) : Prop :=
  match v with
  | .vnil => u.item.type = .nil
  | .vbool b => u.item.type = .boolean ∧ u.item.boolean = b
  | .vuns n => u.item.type = .posInt ∧ u.item.u64 = n
  | .vsgn i =>
      if 0 ≤ i then u.item.type = .posInt ∧ u.item.u64 = i.toNat
      else u.item.type = .negInt ∧ u.item.i64 = i
  | .vfloat b => u.item.type = .float ∧ u.item.real32 = b
  | .vdouble b => u.item.type = .double ∧ u.item.u64 = b
  | .varray n => u.item.type = .array ∧ u.item.size = n
  | .vmap n => u.item.type = .map ∧ u.item.size = n
  | .vstr s => u.item.type = .str ∧ u.item.blobLen = s.length ∧
      (u.data.drop u.item.blobStart).take u.item.blobLen = s
  | .vbin s => u.item.type = .bin ∧ u.item.blobLen = s.length ∧
      (u.data.drop u.item.blobStart).take u.item.blobLen = s
  | .vext t s => u.item.type = .ext t ∧ u.item.blobLen = s.length ∧
      (u.data.drop u.item.blobStart).take u.item.blobLen = s

/-- Round-trip of one value through a fresh packer and unpacker. -/
def RoundTrips (v : CWValue) : Prop :=
  (packValue (initPack (capFor v)) v).2 = .ok ∧
    (cw_unpack_next (initUnpack (packValue (initPack (capFor v)) v).1.out)).2 = .ok ∧
    matchesItem v (cw_unpack_next (initUnpack (packValue (initPack (capFor v)) v).1.out)).1

theorem ofBits_toBits8 (i : Int) (h1 : -128 ≤ i) (h2 : i < 128) :
    ofBits 8 (toBits 8 i) = i := by
  unfold ofBits toBits
  norm_num
  split <;> omega

theorem ofBits_toBits16 (i : Int) (h1 : -32768 ≤ i) (h2 : i < 32768) :
    ofBits 16 (toBits 16 i) = i := by
  unfold ofBits toBits
  norm_num
  split <;> omega

theorem ofBits_toBits32 (i : Int) (h1 : -(2 ^ 31) ≤ i) (h2 : i < 2 ^ 31) :
    ofBits 32 (toBits 32 i) = i := by
  unfold ofBits toBits
  norm_num
  split <;> omega

theorem ofBits_toBits64 (i : Int) (h1 : -(2 ^ 63) ≤ i) (h2 : i < 2 ^ 63) :
    ofBits 64 (toBits 64 i) = i := by
  unfold ofBits toBits
  norm_num
  split <;> omega

theorem rt_nil : RoundTrips .vnil := by
  simp only [RoundTrips, packValue, capFor, matchesItem]
  decide

theorem rt_bool (b : Bool) : RoundTrips (.vbool b) := by
  cases b <;> simp only [RoundTrips, packValue, capFor, matchesItem] <;> decide

theorem rt_uns (v : Nat) (h : v < 2 ^ 64) : RoundTrips (.vuns v) := by
  rcases lt_or_ge v 128 with h1 | h1
  · have hm : v % 256 = v := Nat.mod_eq_of_lt (by omega)
    have hle : v ≤ 127 := by omega
    simp [RoundTrips, packValue, capFor, matchesItem, cw_pack_unsigned, h1, tryMove0,
      packNeeds, initPack, cw_unpack_next, initUnpack, unpackNeeds, byteHere, hm, hle,
      zeroItem, cwItem.u64]
  · rcases lt_or_ge v 256 with h2 | h2
    · have hm : v % 256 = v := Nat.mod_eq_of_lt (by omega)
      simp [RoundTrips, packValue, capFor, matchesItem, cw_pack_unsigned, h1, h2, tryMove1,
        packNeeds, initPack, cw_unpack_next, initUnpack, unpackNeeds, byteHere, hm,
        loadInto, loadBE, setType, zeroItem, cwItem.u64, show ¬ v < 128 by omega]
    · rcases lt_or_ge v 65536 with h3 | h3
      · simp [RoundTrips, packValue, capFor, matchesItem, cw_pack_unsigned, h3, tryMove2,
          packNeeds, initPack, cw_unpack_next, initUnpack, unpackNeeds, byteHere,
          cw_store16, loadInto, loadBE, setType, zeroItem, cwItem.u64, byteAt,
          Nat.shiftRight_eq_div_pow, show ¬ v < 128 by omega, show ¬ v < 256 by omega] <;>
          omega
      · rcases lt_or_ge v 4294967296 with h4 | h4
        · simp [RoundTrips, packValue, capFor, matchesItem, cw_pack_unsigned, h4, tryMove4,
            packNeeds, initPack, cw_unpack_next, initUnpack, unpackNeeds, byteHere,
            cw_store32, loadInto, loadBE, setType, zeroItem, cwItem.u64, byteAt,
            Nat.shiftRight_eq_div_pow, show ¬ v < 128 by omega, show ¬ v < 256 by omega,
            show ¬ v < 65536 by omega] <;>
            omega
        · simp [RoundTrips, packValue, capFor, matchesItem, cw_pack_unsigned, tryMove8,
            packNeeds, initPack, cw_unpack_next, initUnpack, unpackNeeds, byteHere,
            cw_store64, loadInto, loadBE, setType, zeroItem, cwItem.u64, byteAt,
            Nat.shiftRight_eq_div_pow, show ¬ v < 128 by omega, show ¬ v < 256 by omega,
            show ¬ v < 65536 by omega, show ¬ v < 4294967296 by omega] <;>
            omega

theorem loadBE_one (x b0 : Nat) (rest : List Nat) : loadBE (x :: b0 :: rest) 1 1 = b0 := by
  simp [loadBE]

theorem loadBE_two (x p : Nat) (rest : List Nat) (hp : p < 65536) :
    loadBE (x :: byteAt p 1 :: byteAt p 0 :: rest) 1 2 = p := by
  simp [loadBE, byteAt, Nat.shiftRight_eq_div_pow]
  omega

theorem loadBE_four (x p : Nat) (rest : List Nat) (hp : p < 4294967296) :
    loadBE (x :: byteAt p 3 :: byteAt p 2 :: byteAt p 1 :: byteAt p 0 :: rest) 1 4 = p := by
  simp [loadBE, byteAt, Nat.shiftRight_eq_div_pow]
  omega

theorem loadBE_eight (x p : Nat) (rest : List Nat) (hp : p < 2 ^ 64) :
    loadBE (x :: byteAt p 7 :: byteAt p 6 :: byteAt p 5 :: byteAt p 4 :: byteAt p 3 ::
      byteAt p 2 :: byteAt p 1 :: byteAt p 0 :: rest) 1 8 = p := by
  simp [loadBE, byteAt, Nat.shiftRight_eq_div_pow]
  omega

/-- Dispatch of a negative-fixnum prefix byte. -/
theorem unpack_next_negfix (c : Nat) (rest : List Nat) (it : cwItem)
    (h1 : 0xe0 ≤ c) (h2 : c ≤ 0xff) :
    cw_unpack_next ⟨c :: rest, 0, .ok, it⟩ =
      (⟨c :: rest, 1, .ok,
        { it with type := .negInt, cell := toBits 64 (ofBits 8 c) }⟩, .ok) := by
  interval_cases c <;> simp [cw_unpack_next, byteHere, unpackNeeds]

theorem rt_sgn (i : Int) (hlo : -(2 ^ 63) ≤ i) (hhi : i < 2 ^ 63) : RoundTrips (.vsgn i) := by
  rcases le_or_lt 0 i with h0 | h0
  · have h := rt_uns i.toNat (by omega)
    unfold RoundTrips at h ⊢
    have hpk : packValue (initPack (capFor (CWValue.vsgn i))) (CWValue.vsgn i)
        = packValue (initPack (capFor (CWValue.vuns i.toNat))) (CWValue.vuns i.toNat) := by
      simp only [packValue, capFor]
      rw [cw_pack_signed, if_neg (by decide), if_pos h0]
    rw [hpk]
    refine ⟨h.1, h.2.1, ?_⟩
    have hm := h.2.2
    simp only [matchesItem] at hm ⊢
    rw [if_pos h0]
    exact hm
  · have e64 : ofBits 64 (toBits 64 i) = i := ofBits_toBits64 i (by omega) (by omega)
    have hne0 : ¬ (0 ≤ i) := by omega
    rcases le_or_lt (-32) i with g1 | g1
    · -- negative fixint
      have e8 : ofBits 8 (toBits 8 i) = i := ofBits_toBits8 i (by omega) (by omega)
      have hb : toBits 8 i = (i % 256).toNat := rfl
      have hc1 : 224 ≤ toBits 8 i := by rw [hb]; omega
      have hc2 : toBits 8 i ≤ 255 := by rw [hb]; omega
      have hm : toBits 8 i % 256 = toBits 8 i := Nat.mod_eq_of_lt (by omega)
      have hpk : packValue (initPack (capFor (CWValue.vsgn i))) (CWValue.vsgn i)
          = (⟨[toBits 8 i], 9, .ok⟩, .ok) := by
        simp [packValue, capFor, cw_pack_signed, hne0, g1, tryMove0, packNeeds, initPack, hm]
      unfold RoundTrips
      rw [hpk]
      have hun := unpack_next_negfix (toBits 8 i) [] zeroItem hc1 hc2
      simp only [initUnpack]
      rw [hun]
      simp [matchesItem, hne0, cwItem.i64, e8, e64]
    · rcases le_or_lt (-128) i with g2 | g2
      · -- int 8
        have e8 : ofBits 8 (toBits 8 i) = i := ofBits_toBits8 i (by omega) (by omega)
        have hm : toBits 8 i % 256 = toBits 8 i :=
          Nat.mod_eq_of_lt (by have := toBits_lt 8 i; omega)
        have hpk : packValue (initPack (capFor (CWValue.vsgn i))) (CWValue.vsgn i)
            = (⟨[0xd0, toBits 8 i], 9, .ok⟩, .ok) := by
          simp [packValue, capFor, cw_pack_signed, hne0, tryMove1, packNeeds, initPack, hm,
            show ¬ (-32 ≤ i) by omega, g2]
        unfold RoundTrips
        rw [hpk]
        simp [matchesItem, hne0, cwItem.i64, e8, e64, cw_unpack_next, initUnpack,
          unpackNeeds, byteHere, signedTail, setType, loadBE, zeroItem]
      · rcases le_or_lt (-32768) i with g3 | g3
        · -- int 16
          have e16 : ofBits 16 (toBits 16 i) = i := ofBits_toBits16 i (by omega) (by omega)
          have hp : toBits 16 i < 65536 := by have := toBits_lt 16 i; omega
          have hpk : packValue (initPack (capFor (CWValue.vsgn i))) (CWValue.vsgn i)
              = (⟨0xd1 :: cw_store16 (toBits 16 i), 9, .ok⟩, .ok) := by
            simp [packValue, capFor, cw_pack_signed, hne0, tryMove2, packNeeds, initPack,
              show ¬ (-32 ≤ i) by omega, show ¬ (-128 ≤ i) by omega, g3]
          unfold RoundTrips
          rw [hpk]
          simp [matchesItem, hne0, cwItem.i64, e16, e64, cw_unpack_next, initUnpack,
            unpackNeeds, byteHere, signedTail, setType, cw_store16, loadBE_two _ _ _ hp,
            zeroItem]
        · rcases le_or_lt (-(2 ^ 31)) i with g4 | g4
          · -- int 32
            have e32 : ofBits 32 (toBits 32 i) = i := ofBits_toBits32 i (by omega) (by omega)
            have hp : toBits 32 i < 4294967296 := by have := toBits_lt 32 i; omega
            have hpk : packValue (initPack (capFor (CWValue.vsgn i))) (CWValue.vsgn i)
                = (⟨0xd2 :: cw_store32 (toBits 32 i), 9, .ok⟩, .ok) := by
              simp [packValue, capFor, cw_pack_signed, hne0, tryMove4, packNeeds, initPack,
                show ¬ (-32 ≤ i) by omega, show ¬ (-128 ≤ i) by omega,
                show ¬ (-32768 ≤ i) by omega, g4, show (-2147483648 : Int) ≤ i by omega]
            unfold RoundTrips
            rw [hpk]
            simp [matchesItem, hne0, cwItem.i64, e32, e64, cw_unpack_next, initUnpack,
              unpackNeeds, byteHere, signedTail, setType, cw_store32, loadBE_four _ _ _ hp,
              zeroItem]
          · -- int 64
            have hp : toBits 64 i < 2 ^ 64 := toBits_lt 64 i
            have hpk : packValue (initPack (capFor (CWValue.vsgn i))) (CWValue.vsgn i)
                = (⟨0xd3 :: cw_store64 (toBits 64 i), 9, .ok⟩, .ok) := by
              simp [packValue, capFor, cw_pack_signed, hne0, tryMove8, packNeeds, initPack,
                show ¬ (-32 ≤ i) by omega, show ¬ (-128 ≤ i) by omega,
                show ¬ (-32768 ≤ i) by omega, show ¬ (-(2 ^ 31) ≤ i) by omega,
                show ¬ ((-2147483648 : Int) ≤ i) by omega]
            unfold RoundTrips
            rw [hpk]
            simp [matchesItem, hne0, cwItem.i64, e64, cw_unpack_next, initUnpack,
              unpackNeeds, byteHere, signedTail, setType, cw_store64, loadBE_eight _ _ _ hp,
              zeroItem]

theorem rt_float (b : Nat) (h : b < 2 ^ 32) : RoundTrips (.vfloat b) := by
  have h' : b < 4294967296 := by omega
  unfold RoundTrips
  have hpk : packValue (initPack (capFor (CWValue.vfloat b))) (CWValue.vfloat b)
      = (⟨0xca :: cw_store32 b, 9, .ok⟩, .ok) := by
    simp [packValue, capFor, cw_pack_float, tryMove4, packNeeds, initPack]
  rw [hpk]
  simp [matchesItem, cw_unpack_next, initUnpack, unpackNeeds, byteHere, loadInto, setType,
    cw_store32, loadBE_four _ _ _ h', zeroItem]

theorem rt_double (b : Nat) (h : b < 2 ^ 64) : RoundTrips (.vdouble b) := by
  unfold RoundTrips
  have hpk : packValue (initPack (capFor (CWValue.vdouble b))) (CWValue.vdouble b)
      = (⟨0xcb :: cw_store64 b, 9, .ok⟩, .ok) := by
    simp [packValue, capFor, cw_pack_double, tryMove8, packNeeds, initPack]
  rw [hpk]
  simp [matchesItem, cw_unpack_next, initUnpack, unpackNeeds, byteHere, loadInto, setType,
    cw_store64, loadBE_eight _ _ _ h, zeroItem, cwItem.u64]

theorem orArr : ∀ n < 16, 0x90 ≤ 0x90 ||| n ∧ 0x90 ||| n ≤ 0x9f ∧ (0x90 ||| n) &&& 15 = n := by
  decide

theorem orMap : ∀ n < 16, 0x80 ≤ 0x80 ||| n ∧ 0x80 ||| n ≤ 0x8f ∧ (0x80 ||| n) &&& 15 = n := by
  decide

/-- Dispatch of a fixarray prefix byte. -/
theorem unpack_next_fixarr (c : Nat) (rest : List Nat) (it : cwItem)
    (h1 : 0x90 ≤ c) (h2 : c ≤ 0x9f) :
    cw_unpack_next ⟨c :: rest, 0, .ok, it⟩ =
      (⟨c :: rest, 1, .ok, { it with type := .array, size := c &&& 0x0f }⟩, .ok) := by
  interval_cases c <;> simp [cw_unpack_next, byteHere, unpackNeeds]

/-- Dispatch of a fixmap prefix byte. -/
theorem unpack_next_fixmap (c : Nat) (rest : List Nat) (it : cwItem)
    (h1 : 0x80 ≤ c) (h2 : c ≤ 0x8f) :
    cw_unpack_next ⟨c :: rest, 0, .ok, it⟩ =
      (⟨c :: rest, 1, .ok, { it with type := .map, size := c &&& 0x0f }⟩, .ok) := by
  interval_cases c <;> simp [cw_unpack_next, byteHere, unpackNeeds]

theorem rt_array (n : Nat) (h : n < 2 ^ 32) : RoundTrips (.varray n) := by
  unfold RoundTrips
  rcases lt_or_ge n 16 with h1 | h1
  · obtain ⟨b1, b2, b3⟩ := orArr n h1
    have hm : (0x90 ||| n) % 256 = 0x90 ||| n := Nat.mod_eq_of_lt (by omega)
    have hpk : packValue (initPack (capFor (CWValue.varray n))) (CWValue.varray n)
        = (⟨[0x90 ||| n], 9, .ok⟩, .ok) := by
      simp [packValue, capFor, cw_pack_array_size, h1, tryMove0, packNeeds, initPack, hm]
    rw [hpk]
    simp only [initUnpack]
    rw [unpack_next_fixarr _ _ _ b1 b2]
    simp [matchesItem, b3]
  · rcases lt_or_ge n 65536 with h2 | h2
    · have hpk : packValue (initPack (capFor (CWValue.varray n))) (CWValue.varray n)
          = (⟨0xdc :: cw_store16 n, 9, .ok⟩, .ok) := by
        simp [packValue, capFor, cw_pack_array_size, h2, tryMove2, packNeeds, initPack,
          show ¬ n < 16 by omega]
      rw [hpk]
      simp [matchesItem, cw_unpack_next, initUnpack, unpackNeeds, byteHere, loadInto,
        setType, cw_store16, loadBE_two _ _ _ h2, zeroItem]
    · have h4 : n < 4294967296 := by omega
      have hpk : packValue (initPack (capFor (CWValue.varray n))) (CWValue.varray n)
          = (⟨0xdd :: cw_store32 n, 9, .ok⟩, .ok) := by
        simp [packValue, capFor, cw_pack_array_size, tryMove4, packNeeds, initPack,
          show ¬ n < 16 by omega, show ¬ n < 65536 by omega]
      rw [hpk]
      simp [matchesItem, cw_unpack_next, initUnpack, unpackNeeds, byteHere, loadInto,
        setType, cw_store32, loadBE_four _ _ _ h4, zeroItem]

theorem rt_map (n : Nat) (h : n < 2 ^ 32) : RoundTrips (.vmap n) := by
  unfold RoundTrips
  rcases lt_or_ge n 16 with h1 | h1
  · obtain ⟨b1, b2, b3⟩ := orMap n h1
    have hm : (0x80 ||| n) % 256 = 0x80 ||| n := Nat.mod_eq_of_lt (by omega)
    have hpk : packValue (initPack (capFor (CWValue.vmap n))) (CWValue.vmap n)
        = (⟨[0x80 ||| n], 9, .ok⟩, .ok) := by
      simp [packValue, capFor, cw_pack_map_size, h1, tryMove0, packNeeds, initPack, hm]
    rw [hpk]
    simp only [initUnpack]
    rw [unpack_next_fixmap _ _ _ b1 b2]
    simp [matchesItem, b3]
  · rcases lt_or_ge n 65536 with h2 | h2
    · have hpk : packValue (initPack (capFor (CWValue.vmap n))) (CWValue.vmap n)
          = (⟨0xde :: cw_store16 n, 9, .ok⟩, .ok) := by
        simp [packValue, capFor, cw_pack_map_size, h2, tryMove2, packNeeds, initPack,
          show ¬ n < 16 by omega]
      rw [hpk]
      simp [matchesItem, cw_unpack_next, initUnpack, unpackNeeds, byteHere, loadInto,
        setType, cw_store16, loadBE_two _ _ _ h2, zeroItem]
    · have h4 : n < 4294967296 := by omega
      have hpk : packValue (initPack (capFor (CWValue.vmap n))) (CWValue.vmap n)
          = (⟨0xdf :: cw_store32 n, 9, .ok⟩, .ok) := by
        simp [packValue, capFor, cw_pack_map_size, tryMove4, packNeeds, initPack,
          show ¬ n < 16 by omega, show ¬ n < 65536 by omega]
      rw [hpk]
      simp [matchesItem, cw_unpack_next, initUnpack, unpackNeeds, byteHere, loadInto,
        setType, cw_store32, loadBE_four _ _ _ h4, zeroItem]

/-- Dispatch of a fixstr prefix byte whose declared length fills the rest of
the buffer. -/
theorem unpack_next_fixstr (c : Nat) (rest : List Nat) (it : cwItem)
    (h1 : 0xa0 ≤ c) (h2 : c ≤ 0xbf) (h3 : c &&& 0x1f = rest.length) :
    cw_unpack_next ⟨c :: rest, 0, .ok, it⟩ =
      (⟨c :: rest, 1 + rest.length, .ok,
        { it with type := .str, blobLen := rest.length, blobStart := 1 }⟩, .ok) := by
  interval_cases c <;> simp_all [cw_unpack_next, byteHere, unpackNeeds, assert_blob] <;>
    (intro hx; omega)

theorem rt_str (s : List Nat) (h : s.length < 2 ^ 32) : RoundTrips (.vstr s) := by
  unfold RoundTrips
  rcases lt_or_ge s.length 32 with h1 | h1
  · have hm : (0xa0 + s.length) % 256 = 0xa0 + s.length := Nat.mod_eq_of_lt (by omega)
    have hand : (0xa0 + s.length) &&& 0x1f = s.length := by
      have := Nat.and_pow_two_sub_one_eq_mod (0xa0 + s.length) 5
      simp only [show (2 : Nat) ^ 5 - 1 = 31 from rfl] at this
      omega
    have hpk : packValue (initPack (capFor (CWValue.vstr s))) (CWValue.vstr s)
        = (⟨(0xa0 + s.length) :: s, s.length + 9, .ok⟩, .ok) := by
      rcases Nat.eq_zero_or_pos s.length with hz | hz
      · rw [List.eq_nil_of_length_eq_zero hz]
        simp [packValue, capFor, cw_pack_str, tryMove0, packNeeds, initPack]
      · simp [packValue, capFor, cw_pack_str, h1, packNeeds, initPack, hm,
          show ¬ s.length = 0 by omega, List.take_length]
    rw [hpk]
    simp only [initUnpack]
    rw [unpack_next_fixstr _ _ _ (by omega) (by omega) hand]
    simp [matchesItem]
  · rcases lt_or_ge s.length 256 with h2 | h2
    · have hm : s.length % 256 = s.length := Nat.mod_eq_of_lt (by omega)
      have hpk : packValue (initPack (capFor (CWValue.vstr s))) (CWValue.vstr s)
          = (⟨0xd9 :: s.length :: s, s.length + 9, .ok⟩, .ok) := by
        simp [packValue, capFor, cw_pack_str, h2, packNeeds, initPack, hm,
          show ¬ s.length < 32 by omega, List.take_length]
      rw [hpk]
      simp [matchesItem, cw_unpack_next, initUnpack, unpackNeeds, byteHere, loadInto,
        setType, assert_blob, loadBE, zeroItem, hm, List.getD_cons_succ, List.getD_cons_zero,
        show ¬ (s.length + 1 + 1 < 2) by omega,
        show ¬ (s.length + 1 + 1 < 2 + s.length) by omega]
    · rcases lt_or_ge s.length 65536 with h3 | h3
      · have hpk : packValue (initPack (capFor (CWValue.vstr s))) (CWValue.vstr s)
            = (⟨0xda :: (cw_store16 s.length ++ s), s.length + 9, .ok⟩, .ok) := by
          simp [packValue, capFor, cw_pack_str, h3, packNeeds, initPack,
            show ¬ s.length < 32 by omega, show ¬ s.length < 256 by omega, List.take_length]
        rw [hpk]
        simp [matchesItem, cw_unpack_next, initUnpack, unpackNeeds, byteHere, loadInto,
          setType, assert_blob, cw_store16, loadBE_two _ _ _ h3, zeroItem,
          show ¬ (s.length + 1 + 1 + 1 < 3) by omega,
          show ¬ (s.length + 1 + 1 + 1 < 3 + s.length) by omega]
      · have h4 : s.length < 4294967296 := by omega
        have hpk : packValue (initPack (capFor (CWValue.vstr s))) (CWValue.vstr s)
            = (⟨0xdb :: (cw_store32 s.length ++ s), s.length + 9, .ok⟩, .ok) := by
          simp [packValue, capFor, cw_pack_str, packNeeds, initPack,
            show ¬ s.length < 32 by omega, show ¬ s.length < 256 by omega,
            show ¬ s.length < 65536 by omega, List.take_length]
        rw [hpk]
        simp [matchesItem, cw_unpack_next, initUnpack, unpackNeeds, byteHere, loadInto,
          setType, assert_blob, cw_store32, loadBE_four _ _ _ h4, zeroItem,
          show ¬ (s.length + 1 + 1 + 1 + 1 + 1 < 5) by omega,
          show ¬ (s.length + 1 + 1 + 1 + 1 + 1 < 5 + s.length) by omega]

theorem rt_bin (s : List Nat) (h : s.length < 2 ^ 32) : RoundTrips (.vbin s) := by
  unfold RoundTrips
  rcases lt_or_ge s.length 256 with h2 | h2
  · have hm : s.length % 256 = s.length := Nat.mod_eq_of_lt (by omega)
    have hpk : packValue (initPack (capFor (CWValue.vbin s))) (CWValue.vbin s)
        = (⟨0xc4 :: s.length :: s, s.length + 9, .ok⟩, .ok) := by
      simp [packValue, capFor, cw_pack_bin, h2, packNeeds, initPack, hm, List.take_length]
    rw [hpk]
    simp [matchesItem, cw_unpack_next, initUnpack, unpackNeeds, byteHere, loadInto,
      setType, assert_blob, loadBE, zeroItem, hm, List.getD_cons_succ, List.getD_cons_zero,
      show ¬ (s.length + 1 + 1 < 2) by omega,
      show ¬ (s.length + 1 + 1 < 2 + s.length) by omega]
  · rcases lt_or_ge s.length 65536 with h3 | h3
    · have hpk : packValue (initPack (capFor (CWValue.vbin s))) (CWValue.vbin s)
          = (⟨0xc5 :: (cw_store16 s.length ++ s), s.length + 9, .ok⟩, .ok) := by
        simp [packValue, capFor, cw_pack_bin, h3, packNeeds, initPack,
          show ¬ s.length < 256 by omega, List.take_length]
      rw [hpk]
      simp [matchesItem, cw_unpack_next, initUnpack, unpackNeeds, byteHere, loadInto,
        setType, assert_blob, cw_store16, loadBE_two _ _ _ h3, zeroItem,
        show ¬ (s.length + 1 + 1 + 1 < 3) by omega,
        show ¬ (s.length + 1 + 1 + 1 < 3 + s.length) by omega]
    · have h4 : s.length < 4294967296 := by omega
      have hpk : packValue (initPack (capFor (CWValue.vbin s))) (CWValue.vbin s)
          = (⟨0xc6 :: (cw_store32 s.length ++ s), s.length + 9, .ok⟩, .ok) := by
        simp [packValue, capFor, cw_pack_bin, packNeeds, initPack,
          show ¬ s.length < 256 by omega, show ¬ s.length < 65536 by omega, List.take_length]
      rw [hpk]
      simp [matchesItem, cw_unpack_next, initUnpack, unpackNeeds, byteHere, loadInto,
        setType, assert_blob, cw_store32, loadBE_four _ _ _ h4, zeroItem,
        show ¬ (s.length + 1 + 1 + 1 + 1 + 1 < 5) by omega,
        show ¬ (s.length + 1 + 1 + 1 + 1 + 1 < 5 + s.length) by omega]

theorem rt_ext (t : Int) (s : List Nat) (ht1 : -128 ≤ t) (ht2 : t ≤ 127)
    (h : s.length < 2 ^ 32) : RoundTrips (.vext t s) := by
  have e8t : ofBits 8 (byteOfInt t) = t := by
    unfold byteOfInt
    exact ofBits_toBits8 t (by omega) (by omega)
  unfold RoundTrips
  by_cases hl1 : s.length = 1
  · have htake : s.take 1 = s := by rw [← hl1]; exact List.take_length s
    simp [packValue, capFor, cw_pack_ext, packNeeds, initPack, hl1, htake,
      cw_unpack_next, initUnpack, unpackNeeds, byteHere, fixExtTail, assert_blob,
      matchesItem, e8t, zeroItem]
  · by_cases hl2 : s.length = 2
    · have htake : s.take 2 = s := by rw [← hl2]; exact List.take_length s
      simp [packValue, capFor, cw_pack_ext, packNeeds, initPack, hl1, hl2, htake,
        cw_unpack_next, initUnpack, unpackNeeds, byteHere, fixExtTail, assert_blob,
        matchesItem, e8t, zeroItem]
    · by_cases hl3 : s.length = 4
      · have htake : s.take 4 = s := by rw [← hl3]; exact List.take_length s
        simp [packValue, capFor, cw_pack_ext, packNeeds, initPack, hl1, hl2, hl3, htake,
          cw_unpack_next, initUnpack, unpackNeeds, byteHere, fixExtTail, assert_blob,
          matchesItem, e8t, zeroItem]
      · by_cases hl4 : s.length = 8
        · have htake : s.take 8 = s := by rw [← hl4]; exact List.take_length s
          simp [packValue, capFor, cw_pack_ext, packNeeds, initPack, hl1, hl2, hl3, hl4,
            htake, cw_unpack_next, initUnpack, unpackNeeds, byteHere, fixExtTail,
            assert_blob, matchesItem, e8t, zeroItem]
        · by_cases hl5 : s.length = 16
          · have htake : s.take 16 = s := by rw [← hl5]; exact List.take_length s
            simp [packValue, capFor, cw_pack_ext, packNeeds, initPack, hl1, hl2, hl3, hl4,
              hl5, htake, cw_unpack_next, initUnpack, unpackNeeds, byteHere, fixExtTail,
              assert_blob, matchesItem, e8t, zeroItem]
          · rcases lt_or_ge s.length 256 with g1 | g1
            · have hm : s.length % 256 = s.length := Nat.mod_eq_of_lt (by omega)
              simp [packValue, capFor, cw_pack_ext, packNeeds, initPack, hl1, hl2, hl3,
                hl4, hl5, g1, hm, List.take_length, cw_unpack_next, initUnpack,
                unpackNeeds, byteHere, loadInto, setType, extTypeTail, assert_blob,
                matchesItem, e8t, zeroItem, loadBE, List.getD_cons_succ,
                List.getD_cons_zero,
                show ¬ (s.length + 1 + 1 + 1 < 2) by omega,
                show ¬ (s.length + 1 + 1 + 1 < 3) by omega,
                show ¬ (s.length + 1 + 1 + 1 < 3 + s.length) by omega]
            · rcases lt_or_ge s.length 65536 with g2 | g2
              · simp [packValue, capFor, cw_pack_ext, packNeeds, initPack, hl1, hl2, hl3,
                  hl4, hl5, g2, List.take_length, cw_unpack_next, initUnpack,
                  unpackNeeds, byteHere, loadInto, setType, extTypeTail, assert_blob,
                  matchesItem, e8t, zeroItem, cw_store16, loadBE_two _ _ _ g2,
                  show ¬ s.length < 256 by omega,
                  show ¬ (s.length + 1 + 1 + 1 + 1 < 3) by omega,
                  show ¬ (s.length + 1 + 1 + 1 + 1 < 4) by omega,
                  show ¬ (s.length + 1 + 1 + 1 + 1 < 4 + s.length) by omega]
              · have h4 : s.length < 4294967296 := by omega
                simp [packValue, capFor, cw_pack_ext, packNeeds, initPack, hl1, hl2, hl3,
                  hl4, hl5, List.take_length, cw_unpack_next, initUnpack, unpackNeeds,
                  byteHere, loadInto, setType, extTypeTail, assert_blob, matchesItem,
                  e8t, zeroItem, cw_store32, loadBE_four _ _ _ h4,
                  show ¬ s.length < 256 by omega, show ¬ s.length < 65536 by omega,
                  show ¬ (s.length + 1 + 1 + 1 + 1 + 1 + 1 < 5) by omega,
                  show ¬ (s.length + 1 + 1 + 1 + 1 + 1 + 1 < 6) by omega,
                  show ¬ (s.length + 1 + 1 + 1 + 1 + 1 + 1 < 6 + s.length) by omega]

/-- C1: packing any value of the representable domain into a sufficient
buffer and reading it back with `cw_unpack_next` yields an item of the same
category and value; and the documented normalization holds: a non-negative
value arriving on the signed-8 wire slot `0xd0` is reported as a positive
integer. -/
theorem claim_C1_round_trip :
    (∀ v : CWValue, ValidValue v → RoundTrips v) ∧
      ∀ b < 128, (cw_unpack_next (initUnpack [0xd0, b])).1.item.type = .posInt ∧
        (cw_unpack_next (initUnpack [0xd0, b])).1.item.u64 = b := by
  constructor
  · intro v hv
    cases v with
    | vnil => exact rt_nil
    | vbool b => exact rt_bool b
    | vuns v => exact rt_uns v hv
    | vsgn i => exact rt_sgn i hv.1 hv.2
    | vfloat b => exact rt_float b hv
    | vdouble b => exact rt_double b hv
    | varray n => exact rt_array n hv
    | vmap n => exact rt_map n hv
    | vstr s => exact rt_str s hv
    | vbin s => exact rt_bin s hv
    | vext t s => exact rt_ext t s hv.1 hv.2.1 hv.2.2
  · decide

/-- Witness for C1 at concrete values of three categories. -/
theorem claim_C1_round_trip_witness :
    RoundTrips (.vuns 40000) ∧ RoundTrips (.vsgn (-33)) ∧
      RoundTrips (.vstr [0x68, 0x69]) := by
  have h := claim_C1_round_trip
  exact ⟨h.1 _ (by norm_num [ValidValue]), h.1 _ (by norm_num [ValidValue]),
    h.1 _ (by norm_num [ValidValue])⟩

/-!  ## C3: skip correctness over legal streams  -/

theorem getD_concat (pre mid rest : List Nat) (k : Nat) (hk : k < mid.length) :
    (pre ++ mid ++ rest).getD (pre.length + k) 0 = mid.getD k 0 := by
  rw [List.append_assoc, List.getD_append_right _ _ _ _ (by omega),
    Nat.add_sub_cancel_left, List.getD_append _ _ _ _ (by omega)]

theorem loadBE_concat (pre mid rest : List Nat) (i w : Nat) (hw : i + w ≤ mid.length) :
    loadBE (pre ++ mid ++ rest) (pre.length + i) w = loadBE mid i w := by
  induction w with
  | zero => rfl
  | succ w ih =>
      unfold loadBE
      rw [ih (by omega), Nat.add_assoc, getD_concat _ _ _ _ (by omega)]

theorem skipClass_fixpos : ∀ c < 0x80, skipClass c = .done := by decide

theorem skipClass_fixneg : ∀ c < 0x100, 0xe0 ≤ c → skipClass c = .done := by decide

theorem skipClass_fixstr : ∀ c < 0xc0, 0xa0 ≤ c → skipClass c = .skip (c &&& 0x1f) := by
  decide

theorem skipClass_fixarr : ∀ c < 0xa0, 0x90 ≤ c → skipClass c = .count0 (c &&& 15) := by
  decide

theorem skipClass_fixmap : ∀ c < 0x90, 0x80 ≤ c → skipClass c = .count0 (2 * (c &&& 15)) := by
  decide

/-- One legal non-composite (primitive or blob) item, as raw bytes. -/
inductive PrimItem : List Nat → Prop where
  | fixpos (c : Nat) (h : c ≤ 0x7f) : PrimItem [c]
  | fixneg (c : Nat) (h1 : 0xe0 ≤ c) (h2 : c ≤ 0xff) : PrimItem [c]
  | nilItem : PrimItem [0xc0]
  | falseItem : PrimItem [0xc2]
  | trueItem : PrimItem [0xc3]
  | fixed1 (c : Nat) (h : c = 0xcc ∨ c = 0xd0) (tail : List Nat) (hl : tail.length = 1) :
      PrimItem (c :: tail)
  | fixed2 (c : Nat) (h : c = 0xcd ∨ c = 0xd1 ∨ c = 0xd4) (tail : List Nat)
      (hl : tail.length = 2) : PrimItem (c :: tail)
  | fixed3 (tail : List Nat) (hl : tail.length = 3) : PrimItem (0xd5 :: tail)
  | fixed4 (c : Nat) (h : c = 0xca ∨ c = 0xce ∨ c = 0xd2) (tail : List Nat)
      (hl : tail.length = 4) : PrimItem (c :: tail)
  | fixed5 (tail : List Nat) (hl : tail.length = 5) : PrimItem (0xd6 :: tail)
  | fixed8 (c : Nat) (h : c = 0xcb ∨ c = 0xcf ∨ c = 0xd3) (tail : List Nat)
      (hl : tail.length = 8) : PrimItem (c :: tail)
  | fixed9 (tail : List Nat) (hl : tail.length = 9) : PrimItem (0xd7 :: tail)
  | fixed17 (tail : List Nat) (hl : tail.length = 17) : PrimItem (0xd8 :: tail)
  | fixstr (c : Nat) (h1 : 0xa0 ≤ c) (h2 : c ≤ 0xbf) (tail : List Nat)
      (hl : tail.length = c &&& 0x1f) : PrimItem (c :: tail)
  | blob1 (c : Nat) (h : c = 0xd9 ∨ c = 0xc4) (l : Nat) (hl : l < 256) (tail : List Nat)
      (ht : tail.length = l) : PrimItem (c :: l :: tail)
  | blob2 (c : Nat) (h : c = 0xda ∨ c = 0xc5) (l : Nat) (hl : l < 65536) (tail : List Nat)
      (ht : tail.length = l) : PrimItem (c :: byteAt l 1 :: byteAt l 0 :: tail)
  | blob4 (c : Nat) (h : c = 0xdb ∨ c = 0xc6) (l : Nat) (hl : l < 4294967296)
      (tail : List Nat) (ht : tail.length = l) :
      PrimItem (c :: byteAt l 3 :: byteAt l 2 :: byteAt l 1 :: byteAt l 0 :: tail)
  | ext1 (l : Nat) (hl : l < 256) (tail : List Nat) (ht : tail.length = l + 1) :
      PrimItem (0xc7 :: l :: tail)
  | ext2 (l : Nat) (hl : l < 65536) (tail : List Nat) (ht : tail.length = l + 1) :
      PrimItem (0xc8 :: byteAt l 1 :: byteAt l 0 :: tail)
  | ext4 (l : Nat) (hl : l < 4294967296) (tail : List Nat) (ht : tail.length = l + 1) :
      PrimItem (0xc9 :: byteAt l 3 :: byteAt l 2 :: byteAt l 1 :: byteAt l 0 :: tail)

/-- A legal MessagePack stream of exactly `k` top-level-counted items
(arrays and maps push their element counts back onto the counter, exactly
as `cw_skip_items` does). -/
inductive LegalSeq : Nat → List Nat → Prop where
  | nil : LegalSeq 0 []
  | prim (bs rest : List Nat) (k : Nat) : PrimItem bs → LegalSeq k rest →
      LegalSeq (k + 1) (bs ++ rest)
  | fixarr (c : Nat) (h1 : 0x90 ≤ c) (h2 : c ≤ 0x9f) (k : Nat) (rest : List Nat) :
      LegalSeq ((c &&& 15) + k) rest → LegalSeq (k + 1) (c :: rest)
  | fixmap (c : Nat) (h1 : 0x80 ≤ c) (h2 : c ≤ 0x8f) (k : Nat) (rest : List Nat) :
      LegalSeq (2 * (c &&& 15) + k) rest → LegalSeq (k + 1) (c :: rest)
  | arr16 (m : Nat) (hm : m < 65536) (k : Nat) (rest : List Nat) :
      LegalSeq (m + k) rest → LegalSeq (k + 1) (0xdc :: byteAt m 1 :: byteAt m 0 :: rest)
  | map16 (m : Nat) (hm : m < 65536) (k : Nat) (rest : List Nat) :
      LegalSeq (2 * m + k) rest → LegalSeq (k + 1) (0xde :: byteAt m 1 :: byteAt m 0 :: rest)
  | arr32 (m : Nat) (hm : m < 4294967296) (k : Nat) (rest : List Nat) :
      LegalSeq (m + k) rest →
      LegalSeq (k + 1) (0xdd :: byteAt m 3 :: byteAt m 2 :: byteAt m 1 :: byteAt m 0 :: rest)
  | map32 (m : Nat) (hm : m < 4294967296) (k : Nat) (rest : List Nat) :
      LegalSeq (2 * m + k) rest →
      LegalSeq (k + 1) (0xdf :: byteAt m 3 :: byteAt m 2 :: byteAt m 1 :: byteAt m 0 :: rest)

theorem skip_iter_done (pre : List Nat) (c : Nat) (rest : List Nat) (it : cwItem) (n : Int)
    (cur' : Nat) (hcls : skipClass c = .done) (hcur : cur' = pre.length + 1) :
    cw_skip_iter ⟨pre ++ c :: rest, pre.length, .ok, it⟩ n
      = .inr (⟨pre ++ c :: rest, cur', .ok, it⟩, n - 1) := by
  have hc : byteHere ⟨pre ++ c :: rest, pre.length, .ok, it⟩ = c := by
    have := getD_concat pre [c] rest 0 (by simp)
    simpa [byteHere] using this
  have g1 : ¬ unpackNeeds ⟨pre ++ c :: rest, pre.length, .ok, it⟩ 1 := by
    unfold unpackNeeds
    simp
  simp [cw_skip_iter, hc, hcls, g1, hcur]

theorem skip_iter_skip (pre : List Nat) (c : Nat) (tl rest : List Nat) (it : cwItem)
    (n : Int) (m cur' : Nat) (hcls : skipClass c = .skip m) (hlen : tl.length = m)
    (hcur : cur' = pre.length + 1 + m) :
    cw_skip_iter ⟨pre ++ c :: (tl ++ rest), pre.length, .ok, it⟩ n
      = .inr (⟨pre ++ c :: (tl ++ rest), cur', .ok, it⟩, n - 1) := by
  have hc : byteHere ⟨pre ++ c :: (tl ++ rest), pre.length, .ok, it⟩ = c := by
    have := getD_concat pre (c :: tl) rest 0 (by simp)
    simpa [byteHere] using this
  have g1 : ¬ unpackNeeds ⟨pre ++ c :: (tl ++ rest), pre.length, .ok, it⟩ 1 := by
    unfold unpackNeeds
    simp
  have g2 : ¬ unpackNeeds ⟨pre ++ c :: (tl ++ rest), pre.length + 1, .ok, it⟩ m := by
    unfold unpackNeeds
    simp [hlen]
    omega
  simp [cw_skip_iter, hc, hcls, g1, g2, hcur]

theorem skip_iter_lenSkip (pre : List Nat) (c : Nat) (mid rest : List Nat) (it : cwItem)
    (n : Int) (w extra L cur' : Nat) (hcls : skipClass c = .lenSkip w extra)
    (hload : loadBE (c :: mid) 1 w = L) (hlen : mid.length = w + (L + extra))
    (hcur : cur' = pre.length + 1 + w + (L + extra)) :
    cw_skip_iter ⟨pre ++ c :: (mid ++ rest), pre.length, .ok, it⟩ n
      = .inr (⟨pre ++ c :: (mid ++ rest), cur', .ok, it⟩, n - 1) := by
  have hc : byteHere ⟨pre ++ c :: (mid ++ rest), pre.length, .ok, it⟩ = c := by
    have := getD_concat pre (c :: mid) rest 0 (by simp)
    simpa [byteHere] using this
  have hld : loadBE (pre ++ c :: (mid ++ rest)) (pre.length + 1) w = L := by
    have := loadBE_concat pre (c :: mid) rest 1 w (by simp [hlen]; omega)
    simp only [List.append_assoc, List.cons_append] at this
    rw [this, hload]
  have g1 : ¬ unpackNeeds ⟨pre ++ c :: (mid ++ rest), pre.length, .ok, it⟩ 1 := by
    unfold unpackNeeds
    simp
  have g2 : ¬ unpackNeeds ⟨pre ++ c :: (mid ++ rest), pre.length + 1, .ok, it⟩ w := by
    unfold unpackNeeds
    simp [hlen]
    omega
  have g3 : ¬ unpackNeeds ⟨pre ++ c :: (mid ++ rest), pre.length + 1 + w, .ok, it⟩
      (L + extra) := by
    unfold unpackNeeds
    simp [hlen]
    omega
  simp [cw_skip_iter, hc, hcls, hld, g1, g2, g3, hcur]

theorem skip_iter_count0 (pre : List Nat) (c : Nat) (rest : List Nat) (it : cwItem)
    (n : Int) (m : Nat) (cur' : Nat) (hcls : skipClass c = .count0 m)
    (hcur : cur' = pre.length + 1) :
    cw_skip_iter ⟨pre ++ c :: rest, pre.length, .ok, it⟩ n
      = .inr (⟨pre ++ c :: rest, cur', .ok, it⟩, n - 1 + m) := by
  have hc : byteHere ⟨pre ++ c :: rest, pre.length, .ok, it⟩ = c := by
    have := getD_concat pre [c] rest 0 (by simp)
    simpa [byteHere] using this
  have g1 : ¬ unpackNeeds ⟨pre ++ c :: rest, pre.length, .ok, it⟩ 1 := by
    unfold unpackNeeds
    simp
  simp [cw_skip_iter, hc, hcls, g1, hcur]

theorem skip_iter_countLoad (pre : List Nat) (c : Nat) (hdr rest : List Nat) (it : cwItem)
    (n : Int) (w mult m cur' : Nat) (hcls : skipClass c = .countLoad w mult)
    (hload : loadBE (c :: hdr) 1 w = m) (hlen : hdr.length = w)
    (hcur : cur' = pre.length + 1 + w) :
    cw_skip_iter ⟨pre ++ c :: (hdr ++ rest), pre.length, .ok, it⟩ n
      = .inr (⟨pre ++ c :: (hdr ++ rest), cur', .ok, it⟩, n - 1 + mult * m) := by
  have hc : byteHere ⟨pre ++ c :: (hdr ++ rest), pre.length, .ok, it⟩ = c := by
    have := getD_concat pre (c :: hdr) rest 0 (by simp)
    simpa [byteHere] using this
  have hld : loadBE (pre ++ c :: (hdr ++ rest)) (pre.length + 1) w = m := by
    have := loadBE_concat pre (c :: hdr) rest 1 w (by simp [hlen]; omega)
    simp only [List.append_assoc, List.cons_append] at this
    rw [this, hload]
  have g1 : ¬ unpackNeeds ⟨pre ++ c :: (hdr ++ rest), pre.length, .ok, it⟩ 1 := by
    unfold unpackNeeds
    simp
  have g2 : ¬ unpackNeeds ⟨pre ++ c :: (hdr ++ rest), pre.length + 1, .ok, it⟩ w := by
    unfold unpackNeeds
    simp [hlen]
    omega
  simp [cw_skip_iter, hc, hcls, hld, g1, g2, hcur]

/-- One `cw_skip_items` iteration consumes exactly one primitive item and
decrements the counter. -/
theorem skip_step_prim (pre bs rest : List Nat) (it : cwItem) (n : Int)
    (hbs : PrimItem bs) :
    cw_skip_iter ⟨pre ++ bs ++ rest, pre.length, .ok, it⟩ n
      = .inr (⟨pre ++ bs ++ rest, pre.length + bs.length, .ok, it⟩, n - 1) := by
  rw [List.append_assoc]
  cases hbs with
  | fixpos c h =>
      exact skip_iter_done pre c rest it n _ (skipClass_fixpos c (by omega)) (by simp)
  | fixneg c h1 h2 =>
      exact skip_iter_done pre c rest it n _ (skipClass_fixneg c (by omega) h1) (by simp)
  | nilItem => exact skip_iter_done pre 0xc0 rest it n _ (by decide) (by simp)
  | falseItem => exact skip_iter_done pre 0xc2 rest it n _ (by decide) (by simp)
  | trueItem => exact skip_iter_done pre 0xc3 rest it n _ (by decide) (by simp)
  | fixed1 c h tail hl =>
      exact skip_iter_skip pre c tail rest it n 1 _
        (by rcases h with rfl | rfl <;> decide) hl (by simp [hl] <;> omega)
  | fixed2 c h tail hl =>
      exact skip_iter_skip pre c tail rest it n 2 _
        (by rcases h with rfl | rfl | rfl <;> decide) hl (by simp [hl] <;> omega)
  | fixed3 tail hl =>
      exact skip_iter_skip pre 0xd5 tail rest it n 3 _ (by decide) hl
        (by simp [hl] <;> omega)
  | fixed4 c h tail hl =>
      exact skip_iter_skip pre c tail rest it n 4 _
        (by rcases h with rfl | rfl | rfl <;> decide) hl (by simp [hl] <;> omega)
  | fixed5 tail hl =>
      exact skip_iter_skip pre 0xd6 tail rest it n 5 _ (by decide) hl
        (by simp [hl] <;> omega)
  | fixed8 c h tail hl =>
      exact skip_iter_skip pre c tail rest it n 8 _
        (by rcases h with rfl | rfl | rfl <;> decide) hl (by simp [hl] <;> omega)
  | fixed9 tail hl =>
      exact skip_iter_skip pre 0xd7 tail rest it n 9 _ (by decide) hl
        (by simp [hl] <;> omega)
  | fixed17 tail hl =>
      exact skip_iter_skip pre 0xd8 tail rest it n 17 _ (by decide) hl
        (by simp [hl] <;> omega)
  | fixstr c h1 h2 tail hl =>
      exact skip_iter_skip pre c tail rest it n (c &&& 0x1f) _
        (skipClass_fixstr c (by omega) h1) hl (by simp [hl] <;> omega)
  | blob1 c h l hl tail ht =>
      exact skip_iter_lenSkip pre c (l :: tail) rest it n 1 0 l _
        (by rcases h with rfl | rfl <;> decide) (loadBE_one c l tail)
        (by simp [ht] <;> omega) (by simp [ht] <;> omega)
  | blob2 c h l hl tail ht =>
      exact skip_iter_lenSkip pre c (byteAt l 1 :: byteAt l 0 :: tail) rest it n 2 0 l _
        (by rcases h with rfl | rfl <;> decide) (loadBE_two c l tail hl)
        (by simp [ht] <;> omega) (by simp [ht] <;> omega)
  | blob4 c h l hl tail ht =>
      exact skip_iter_lenSkip pre c
        (byteAt l 3 :: byteAt l 2 :: byteAt l 1 :: byteAt l 0 :: tail) rest it n 4 0 l _
        (by rcases h with rfl | rfl <;> decide) (loadBE_four c l tail hl)
        (by simp [ht] <;> omega) (by simp [ht] <;> omega)
  | ext1 l hl tail ht =>
      exact skip_iter_lenSkip pre 0xc7 (l :: tail) rest it n 1 1 l _ (by decide)
        (loadBE_one 0xc7 l tail) (by simp [ht] <;> omega) (by simp [ht] <;> omega)
  | ext2 l hl tail ht =>
      exact skip_iter_lenSkip pre 0xc8 (byteAt l 1 :: byteAt l 0 :: tail) rest it n 2 1 l _
        (by decide) (loadBE_two 0xc8 l tail hl) (by simp [ht] <;> omega)
        (by simp [ht] <;> omega)
  | ext4 l hl tail ht =>
      exact skip_iter_lenSkip pre 0xc9
        (byteAt l 3 :: byteAt l 2 :: byteAt l 1 :: byteAt l 0 :: tail) rest it n 4 1 l _
        (by decide) (loadBE_four 0xc9 l tail hl) (by simp [ht] <;> omega)
        (by simp [ht] <;> omega)

theorem skip_loop_unfold (ctx : cw_unpack_context) (n : Int) (ctx' : cw_unpack_context)
    (n' : Int) (h : cw_skip_iter ctx n = .inr (ctx', n')) (hpos : ¬ n ≤ 0) :
    cw_skip_loop ctx n = cw_skip_loop ctx' n' := by
  rw [cw_skip_loop, if_neg hpos]
  split
  · rename_i r heq
    rw [heq] at h
    exact absurd h (by simp)
  · rename_i a b heq
    rw [heq] at h
    simp only [Sum.inr.injEq, Prod.mk.injEq] at h
    rw [h.1, h.2]

/-- The skip loop over a legal stream of `k` counted items consumes exactly
its bytes and returns OK. -/
theorem skip_loop_legal {k : Nat} {s : List Nat} (hs : LegalSeq k s) :
    ∀ (pre : List Nat) (it : cwItem),
      cw_skip_loop ⟨pre ++ s, pre.length, .ok, it⟩ (k : Int)
        = (⟨pre ++ s, pre.length + s.length, .ok, it⟩, .ok) := by
  induction hs with
  | nil =>
      intro pre it
      rw [cw_skip_loop, if_pos (by omega)]
      simp
  | prim bs rest k hbs hrest ih =>
      intro pre it
      have hstep := skip_step_prim pre bs rest it ((k + 1 : Nat) : Int) hbs
      rw [List.append_assoc] at hstep
      have hun := skip_loop_unfold _ _ _ _ hstep (by push_cast; omega)
      rw [hun, show ((k + 1 : Nat) : Int) - 1 = ((k : Nat) : Int) by push_cast; ring]
      have ih' := ih (pre ++ bs) it
      simp only [List.length_append, List.append_assoc] at ih'
      rw [ih']
      simp [Nat.add_assoc]
  | fixarr c h1 h2 k rest hrest ih =>
      intro pre it
      have hstep := skip_iter_count0 pre c rest it ((k + 1 : Nat) : Int) (c &&& 15) _
        (skipClass_fixarr c (by omega) h1) rfl
      have hun := skip_loop_unfold _ _ _ _ hstep (by push_cast; omega)
      rw [hun, show ((k + 1 : Nat) : Int) - 1 + ((c &&& 15 : Nat) : Int)
          = (((c &&& 15) + k : Nat) : Int) by push_cast; ring]
      have ih' := ih (pre ++ [c]) it
      simp only [List.length_append, List.append_assoc, List.cons_append, List.nil_append,
        List.length_cons, List.length_nil] at ih'
      rw [ih']
      simp
      omega
  | fixmap c h1 h2 k rest hrest ih =>
      intro pre it
      have hstep := skip_iter_count0 pre c rest it ((k + 1 : Nat) : Int) (2 * (c &&& 15)) _
        (skipClass_fixmap c (by omega) h1) rfl
      have hun := skip_loop_unfold _ _ _ _ hstep (by push_cast; omega)
      rw [hun, show ((k + 1 : Nat) : Int) - 1 + ((2 * (c &&& 15) : Nat) : Int)
          = ((2 * (c &&& 15) + k : Nat) : Int) by push_cast; ring]
      have ih' := ih (pre ++ [c]) it
      simp only [List.length_append, List.append_assoc, List.cons_append, List.nil_append,
        List.length_cons, List.length_nil] at ih'
      rw [ih']
      simp
      omega
  | arr16 m hm k rest hrest ih =>
      intro pre it
      have hstep := skip_iter_countLoad pre 0xdc [byteAt m 1, byteAt m 0] rest it
        ((k + 1 : Nat) : Int) 2 1 m _ (by decide) (loadBE_two 0xdc m [] hm) rfl rfl
      simp only [List.cons_append, List.nil_append] at hstep
      have hun := skip_loop_unfold _ _ _ _ hstep (by push_cast; omega)
      rw [hun, show ((k + 1 : Nat) : Int) - 1 + ((1 : Nat) : Int) * ((m : Nat) : Int)
          = ((m + k : Nat) : Int) by push_cast; ring]
      have ih' := ih (pre ++ [0xdc, byteAt m 1, byteAt m 0]) it
      simp only [List.length_append, List.append_assoc, List.cons_append, List.nil_append,
        List.length_cons, List.length_nil] at ih'
      rw [ih']
      simp
      omega
  | map16 m hm k rest hrest ih =>
      intro pre it
      have hstep := skip_iter_countLoad pre 0xde [byteAt m 1, byteAt m 0] rest it
        ((k + 1 : Nat) : Int) 2 2 m _ (by decide) (loadBE_two 0xde m [] hm) rfl rfl
      simp only [List.cons_append, List.nil_append] at hstep
      have hun := skip_loop_unfold _ _ _ _ hstep (by push_cast; omega)
      rw [hun, show ((k + 1 : Nat) : Int) - 1 + ((2 : Nat) : Int) * ((m : Nat) : Int)
          = ((2 * m + k : Nat) : Int) by push_cast; ring]
      have ih' := ih (pre ++ [0xde, byteAt m 1, byteAt m 0]) it
      simp only [List.length_append, List.append_assoc, List.cons_append, List.nil_append,
        List.length_cons, List.length_nil] at ih'
      rw [ih']
      simp
      omega
  | arr32 m hm k rest hrest ih =>
      intro pre it
      have hstep := skip_iter_countLoad pre 0xdd
        [byteAt m 3, byteAt m 2, byteAt m 1, byteAt m 0] rest it
        ((k + 1 : Nat) : Int) 4 1 m _ (by decide) (loadBE_four 0xdd m [] hm) rfl rfl
      simp only [List.cons_append, List.nil_append] at hstep
      have hun := skip_loop_unfold _ _ _ _ hstep (by push_cast; omega)
      rw [hun, show ((k + 1 : Nat) : Int) - 1 + ((1 : Nat) : Int) * ((m : Nat) : Int)
          = ((m + k : Nat) : Int) by push_cast; ring]
      have ih' := ih (pre ++ [0xdd, byteAt m 3, byteAt m 2, byteAt m 1, byteAt m 0]) it
      simp only [List.length_append, List.append_assoc, List.cons_append, List.nil_append,
        List.length_cons, List.length_nil] at ih'
      rw [ih']
      simp
      omega
  | map32 m hm k rest hrest ih =>
      intro pre it
      have hstep := skip_iter_countLoad pre 0xdf
        [byteAt m 3, byteAt m 2, byteAt m 1, byteAt m 0] rest it
        ((k + 1 : Nat) : Int) 4 2 m _ (by decide) (loadBE_four 0xdf m [] hm) rfl rfl
      simp only [List.cons_append, List.nil_append] at hstep
      have hun := skip_loop_unfold _ _ _ _ hstep (by push_cast; omega)
      rw [hun, show ((k + 1 : Nat) : Int) - 1 + ((2 : Nat) : Int) * ((m : Nat) : Int)
          = ((2 * m + k : Nat) : Int) by push_cast; ring]
      have ih' := ih (pre ++ [0xdf, byteAt m 3, byteAt m 2, byteAt m 1, byteAt m 0]) it
      simp only [List.length_append, List.append_assoc, List.cons_append, List.nil_append,
        List.length_cons, List.length_nil] at ih'
      rw [ih']
      simp
      omega

/-- C3: for any legal stream `S` of `k` counted items, `cw_skip_items k`
consumes exactly `|S|` bytes (array headers add their element count, map
headers twice their pair count, to the running counter), returns OK, and
leaves the unpacker so that the next `cw_unpack_next` at end of buffer
returns end-of-input. -/
theorem claim_C3_skip_correctness (k : Nat) (s : List Nat) (hs : LegalSeq k s)
    (pre : List Nat) (it : cwItem) :
    cw_skip_items ⟨pre ++ s, pre.length, .ok, it⟩ (k : Int)
      = (⟨pre ++ s, pre.length + s.length, .ok, it⟩, .ok) ∧
    (cw_unpack_next (cw_skip_items ⟨pre ++ s, pre.length, .ok, it⟩ (k : Int)).1).2
      = .endOfInput := by
  have hrun : cw_skip_items ⟨pre ++ s, pre.length, .ok, it⟩ (k : Int)
      = (⟨pre ++ s, pre.length + s.length, .ok, it⟩, .ok) := by
    rw [cw_skip_items, if_neg (by simp)]
    exact skip_loop_legal hs pre it
  refine ⟨hrun, ?_⟩
  rw [hrun]
  rw [cw_unpack_next, if_neg (by simp), if_pos (by unfold unpackNeeds; simp)]
  rfl

/-- Witness for C3 on the spec's vector 6: the 4-byte stream
`93 01 02 03` (an array of three fixints) skipped as one item. -/
theorem claim_C3_skip_correctness_witness :
    cw_skip_items ⟨[0x93, 0x01, 0x02, 0x03], 0, .ok, zeroItem⟩ 1
      = (⟨[0x93, 0x01, 0x02, 0x03], 4, .ok, zeroItem⟩, .ok) ∧
    (cw_unpack_next (cw_skip_items ⟨[0x93, 0x01, 0x02, 0x03], 0, .ok, zeroItem⟩ 1).1).2
      = .endOfInput := by
  have d1 : LegalSeq 1 [0x03] := .prim [0x03] [] 0 (.fixpos 0x03 (by omega)) .nil
  have d2 : LegalSeq 2 [0x02, 0x03] := .prim [0x02] [0x03] 1 (.fixpos 0x02 (by omega)) d1
  have d3 : LegalSeq 3 [0x01, 0x02, 0x03] :=
    .prim [0x01] [0x02, 0x03] 2 (.fixpos 0x01 (by omega)) d2
  have d4 : LegalSeq 1 [0x93, 0x01, 0x02, 0x03] :=
    .fixarr 0x93 (by omega) (by omega) 0 [0x01, 0x02, 0x03] d3
  have h := claim_C3_skip_correctness 1 [0x93, 0x01, 0x02, 0x03] d4 [] zeroItem
  simpa using h
